import Mathlib

/-!
# GroupSyncRead (DynamixelSDK, OpenCR Arduino library)

A shallow embedding of `dynamixel_sdk/group_sync_read.cpp`.

* The object state is the structure `GroupSyncRead`; every member function is a
  Lean function that takes the state and returns the new state together with
  the C++ return value.
* `param_` is `none` for a null pointer and otherwise the byte array it points
  to.  Pointers into the array are offsets from `param_`.  A load outside the
  array reads 0 and a store outside it is dropped; the theorems that depend
  on a store say how large the array has to be.
* Bytes and counters are natural numbers.  `max_ids_` and `count_ids_` are
  declared in `group_sync_read.h`, which is not among the sources; they are
  taken as `uint8_t`, the type of the constructor argument `max_ids` and of
  the loop counters that range over them.  The only place where a value can
  leave that range is the division in `setBuffer`, which is reduced mod 256.
* `EXTRA_BYTES_PER_ITEM` is also declared in the missing header; every
  function that uses it takes it as its first argument.
* The port and packet handlers are external.  The packet handler is a record
  of functions over an abstract port state; what `readRx` stores through its
  two output pointers is returned as data.
* A call of a member function with its arguments is a value of `Op`; `step`
  is the state after one call and `runOps` the state after a list of calls,
  which is how the statements about every reachable state are put.
-/

namespace GroupSyncRead

/-- Modelled from the spec: `COMM_SUCCESS` is declared in `packet_handler.h`,
which is not among the sources; the spec only asks that Success,
TransmitFailure, ReceiveFailure and NotAvailable are different codes.  The
values are those of the SDK. -/
def COMM_SUCCESS : Int := 0

/-- Modelled from the spec: the TransmitFailure status code (see `COMM_SUCCESS`). -/
def COMM_TX_FAIL : Int := -1001

/-- Modelled from the spec: the ReceiveFailure status code (see `COMM_SUCCESS`). -/
def COMM_RX_FAIL : Int := -1002

/-- Modelled from the spec: the NotAvailable status code (see `COMM_SUCCESS`). -/
def COMM_NOT_AVAILABLE : Int := -9000

/-- Modelled from the spec: `DXL_MAKEWORD` is a macro of `packet_handler.h`,
which is not among the sources; the spec says the bytes are assembled
little-endian, least-significant byte first.  The result is a `uint16_t`
made of the low bytes of the two arguments. -/
def DXL_MAKEWORD (a b : Nat) : Nat := a % 256 + (b % 256) * 256

/-- Modelled from the spec: `DXL_MAKEDWORD` is a macro of `packet_handler.h`,
which is not among the sources; little-endian like `DXL_MAKEWORD`.  The result
is a `uint32_t` made of the low words of the two arguments. -/
def DXL_MAKEDWORD (a b : Nat) : Nat := a % 65536 + (b % 65536) * 65536

/-- Modelled from the spec: `EXTRA_BYTES_PER_ITEM` is declared in
`group_sync_read.h`, which is not among the sources.  The spec calls it the
ID-zone overhead amortized per slot, which is one byte per slot; the comment
on the allocation in `findParam` (line 107) likewise counts it as `ID(1)`,
next to `data_length_ + 1` for the data and the error value.  The functions
below do not use this value: they take `EXTRA_BYTES_PER_ITEM` as an argument. -/
def extraBytesPerRecord : Nat := 1

/-- What one call of `PacketHandler::readRx` does: the port state it leaves,
the communication result it returns, the bytes it stores through `data`
(at most `length` of them are kept) and the byte it stores through `error`,
if it stores one. -/
structure RxOutcome (Port : Type) where
  port : Option Port
  result : Int
  data : List Nat
  error : Option Nat

/-- The part of `PacketHandler` that `GroupSyncRead` calls.  The protocol
version is a `float` in the source and is only ever compared with `1.0`; it is
kept as a number here.  `syncReadTx port start_address data_length param
param_length` returns the new port state and the result; `readRx port id
length` returns an `RxOutcome`. -/
structure PacketHandler (Port : Type) where
  getProtocolVersion : Nat
  syncReadTx : Option Port → Nat → Nat → List Nat → Nat → Option Port × Int
  readRx : Option Port → Nat → Nat → RxOutcome Port

end GroupSyncRead

/-- The data members of `GroupSyncRead`.  `port_` is the state of the port
handler the object points to (`none` for `NULL`). -/
structure GroupSyncRead (Port : Type) where
  port_ : Option Port
  ph_ : Option (GroupSyncRead.PacketHandler Port)
  last_result_ : Bool
  is_user_buffer_ : Bool
  max_ids_ : Nat
  count_ids_ : Nat
  param_ : Option (List Nat)
  start_address_ : Nat
  data_length_ : Nat

namespace GroupSyncRead

variable {Port : Type}

/-- `GroupSyncRead::clearParam` (lines 175-178). -/
def clearParam (s : GroupSyncRead Port) : GroupSyncRead Port :=
  { s with count_ids_ := 0 }

/-- The constructor with port and packet handler (lines 34-47). -/
def construct (port : Option Port) (ph : Option (PacketHandler Port))
    (start_address data_length max_ids : Nat) : GroupSyncRead Port :=
  clearParam
    { port_ := port
      ph_ := ph
      last_result_ := false
      is_user_buffer_ := false
      max_ids_ := max_ids
      count_ids_ := 0
      param_ := none
      start_address_ := start_address
      data_length_ := data_length }

/-- The constructor without handlers (lines 49-60). -/
def constructDeferred (start_address data_length max_ids : Nat) : GroupSyncRead Port :=
  { port_ := none
    ph_ := none
    last_result_ := false
    is_user_buffer_ := false
    max_ids_ := max_ids
    count_ids_ := 0
    param_ := none
    start_address_ := start_address
    data_length_ := data_length }

/-- `GroupSyncRead::init` (lines 71-77). -/
def init (s : GroupSyncRead Port) (port : Option Port) (ph : Option (PacketHandler Port)) :
    GroupSyncRead Port :=
  clearParam { s with port_ := port, ph_ := ph }

/-- The guard `!ph_ || ph_->getProtocolVersion() == 1.0` that opens most
member functions: `true` when there is no packet handler or it speaks
protocol 1.0. -/
def noHandlerOrV1 (s : GroupSyncRead Port) : Bool :=
  match s.ph_ with
  | none => true
  | some ph => ph.getProtocolVersion == 1

/-- `GroupSyncRead::setBuffer` (lines 79-97).  Freeing the old array has no
counterpart here.  `buffer_size / (data_length_ + EXTRA_BYTES_PER_ITEM)` is an
`int`; storing it in `max_ids_` keeps its low 8 bits. -/
def setBuffer (EXTRA_BYTES_PER_ITEM : Nat) (s : GroupSyncRead Port)
    (buffer_pointer : Option (List Nat)) (buffer_size : Nat) : GroupSyncRead Port × Bool :=
  let s1 := { s with param_ := buffer_pointer, count_ids_ := 0 }
  match buffer_pointer with
  | some _ =>
    let s2 := { s1 with
      is_user_buffer_ := true
      max_ids_ := (buffer_size / (s1.data_length_ + EXTRA_BYTES_PER_ITEM)) % 256 }
    (s2, decide (s2.max_ids_ > 0))
  | none => ({ s1 with is_user_buffer_ := false }, true)

/-- The search loop of `findParam` (lines 115-126): `n` iterations remain, `i`
is the loop counter and `pb` points to `param_[i]`.  Returns the index at
which `id` was found first. -/
def findParam.loop (buf : List Nat) (id : Nat) : Nat → Nat → Option Nat
  | 0, _ => none
  | n + 1, i => if buf.getD i 0 = id then some i else findParam.loop buf id n (i + 1)

/-- `GroupSyncRead::findParam` (lines 102-135).  The result is the offset of
the item from `param_`, or `none` for `NULL`.  `new` is taken to succeed; the
fresh array is filled with zeros. -/
def findParam (EXTRA_BYTES_PER_ITEM : Nat) (s : GroupSyncRead Port) (id : Nat)
    (add_if_not_found : Bool) : GroupSyncRead Port × Option Nat :=
  let s1 : GroupSyncRead Port :=
    match s.param_ with
    | some _ => s
    | none =>
      { s with
        param_ := some (List.replicate (s.max_ids_ * (EXTRA_BYTES_PER_ITEM + s.data_length_ + 1)) 0)
        is_user_buffer_ := false
        count_ids_ := 0 }
  let buf := s1.param_.getD []
  match findParam.loop buf id s1.count_ids_ 0 with
  | some i => (s1, some (s1.max_ids_ + i * (s1.data_length_ + 1)))
  | none =>
    if s1.count_ids_ ≥ s1.max_ids_ || !add_if_not_found then (s1, none)
    else
      let s2 := { s1 with
        param_ := some (buf.set s1.count_ids_ id)
        count_ids_ := s1.count_ids_ + 1 }
      (s2, some (s2.max_ids_ + (s2.count_ids_ - 1) * (s2.data_length_ + 1)))

/-- `GroupSyncRead::addParam` (lines 137-152). -/
def addParam (EXTRA_BYTES_PER_ITEM : Nat) (s : GroupSyncRead Port) (id : Nat) :
    GroupSyncRead Port × Bool :=
  if noHandlerOrV1 s then (s, false)
  else
    match findParam EXTRA_BYTES_PER_ITEM s id true with
    | (s1, none) => (s1, false)
    | (s1, some _) => (s1, true)

/-- The inner `while (i < (count_ids_ - 1))` of `removeParam` (lines 166-170):
returns the array and the value of `i` when the loop ends. -/
def removeParam.shift (buf : List Nat) (count : Nat) (i : Nat) : List Nat × Nat :=
  if i + 1 < count then
    removeParam.shift (buf.set i (buf.getD (i + 1) 0)) count (i + 1)
  else (buf, i)
termination_by count - i

/-- The `for` loop of `removeParam` (lines 162-173).  `pb` is set to `param_`
before the loop and never changed, so `*pb` is `param_[0]` in every
iteration.  Returns the array and `count_ids_` when the loop ends. -/
def removeParam.loop (id : Nat) (buf : List Nat) (count : Nat) (i : Nat) : List Nat × Nat :=
  if i < count then
    if buf.getD 0 0 = id then
      let r := removeParam.shift buf count i
      removeParam.loop id r.1 (count - 1) (r.2 + 1)
    else removeParam.loop id buf count (i + 1)
  else (buf, count)
termination_by count - i
decreasing_by
  · have key : ∀ (n : Nat) (b : List Nat) (c j : Nat), c - j = n →
        j ≤ (removeParam.shift b c j).2 := by
      intro n
      induction n with
      | zero =>
        intro b c j hn
        rw [removeParam.shift]
        have : ¬ (j + 1 < c) := by omega
        simp [this]
      | succ n ih =>
        intro b c j hn
        rw [removeParam.shift]
        by_cases hj : j + 1 < c
        · simp only [hj, if_true]
          have := ih (b.set j (b.getD (j + 1) 0)) c (j + 1) (by omega)
          omega
        · simp [hj]
    have := key (count - i) buf count i rfl
    omega
  · omega

/-- `GroupSyncRead::removeParam` (lines 154-174). -/
def removeParam (s : GroupSyncRead Port) (id : Nat) : GroupSyncRead Port :=
  if noHandlerOrV1 s then s
  else
    match s.param_ with
    | none => s
    | some buf =>
      let r := removeParam.loop id buf s.count_ids_ 0
      { s with param_ := some r.1, count_ids_ := r.2 }

/-- `GroupSyncRead::txPacket` (lines 180-186).  `syncReadTx` gets the array
`param_` points to and `count_ids_`. -/
def txPacket (s : GroupSyncRead Port) : GroupSyncRead Port × Int :=
  match s.ph_ with
  | none => (s, COMM_NOT_AVAILABLE)
  | some ph =>
    if ph.getProtocolVersion == 1 || s.count_ids_ == 0 then (s, COMM_NOT_AVAILABLE)
    else
      let r := ph.syncReadTx s.port_ s.start_address_ s.data_length_ (s.param_.getD [])
        s.count_ids_
      ({ s with port_ := r.1 }, r.2)

/-- Stores `bytes` at `buf[p]`, `buf[p + 1]`, ... -/
def writeBytes : List Nat → Nat → List Nat → List Nat
  | buf, _, [] => buf
  | buf, p, b :: bs => writeBytes (buf.set p b) (p + 1) bs

/-- The array after one `readRx(port_, id, data_length_, item_buffer_pointer,
item_buffer_pointer + data_length_)` with `item_buffer_pointer = param_ + p`:
the data bytes go to `p`, the error byte to `p + length`. -/
def storeRx (buf : List Nat) (p length : Nat) (o : RxOutcome Port) : List Nat :=
  let buf1 := writeBytes buf p (o.data.take length)
  match o.error with
  | some e => buf1.set (p + length) e
  | none => buf1

/-- The state of `rxPacket` when its `for` loop is left: port state, array,
`result`, whether the loop was left by `return result`, and the `id`
arguments of the `readRx` calls made, in order. -/
structure RxRun (Port : Type) where
  port : Option Port
  buf : List Nat
  result : Int
  returned : Bool
  calls : List Nat

/-- The `for` loop of `rxPacket` (lines 201-210): `n` iterations remain and
`item_buffer_pointer` is `param_ + p`.  The declaration of `id` at line 204 is
commented out, so the `id` handed to `readRx` at line 206 is not set in the
loop; it is the argument `id` here, the same in every iteration. -/
def rxPacket.loop (ph : PacketHandler Port) (id data_length : Nat) :
    Nat → Option Port → List Nat → Nat → Int → List Nat → RxRun Port
  | 0, port, buf, _, result, calls => ⟨port, buf, result, false, calls⟩
  | n + 1, port, buf, p, _, calls =>
    let o := ph.readRx port id data_length
    let buf1 := storeRx buf p data_length o
    if o.result ≠ COMM_SUCCESS then ⟨o.port, buf1, o.result, true, calls ++ [id]⟩
    else rxPacket.loop ph id data_length n o.port buf1 (p + (data_length + 1)) o.result
      (calls ++ [id])

/-- `GroupSyncRead::rxPacket` (lines 188-216).  `id` is the value of the
identifier `id` used at line 206.  The third component of the result lists
the `id` arguments of the `readRx` calls made. -/
def rxPacket (s : GroupSyncRead Port) (id : Nat) : GroupSyncRead Port × Int × List Nat :=
  let s1 := { s with last_result_ := false }
  match s1.ph_ with
  | none => (s1, COMM_NOT_AVAILABLE, [])
  | some ph =>
    if ph.getProtocolVersion == 1 then (s1, COMM_NOT_AVAILABLE, [])
    else if s1.count_ids_ == 0 then (s1, COMM_NOT_AVAILABLE, [])
    else
      let r := rxPacket.loop ph id s1.data_length_ s1.count_ids_ s1.port_ (s1.param_.getD [])
        s1.max_ids_ COMM_RX_FAIL []
      let s2 := { s1 with port_ := r.port, param_ := s1.param_.map (fun _ => r.buf) }
      if r.returned then (s2, r.result, r.calls)
      else if r.result == COMM_SUCCESS then ({ s2 with last_result_ := true }, r.result, r.calls)
      else (s2, r.result, r.calls)

/-- `GroupSyncRead::txRxPacket` (lines 218-231); `id` as in `rxPacket`. -/
def txRxPacket (s : GroupSyncRead Port) (id : Nat) : GroupSyncRead Port × Int × List Nat :=
  if noHandlerOrV1 s then (s, COMM_NOT_AVAILABLE, [])
  else
    match txPacket s with
    | (s1, result) =>
      if result ≠ COMM_SUCCESS then (s1, result, [])
      else rxPacket s1 id

/-- `GroupSyncRead::isAvailable` (lines 233-243).  In
`start_address_ + data_length_ - data_length < address` the `uint16_t`
operands are promoted to `int`, so the difference may be negative and does
not wrap. -/
def isAvailable (EXTRA_BYTES_PER_ITEM : Nat) (s : GroupSyncRead Port) (id address data_length : Nat) :
    GroupSyncRead Port × Bool :=
  if noHandlerOrV1 s || s.last_result_ == false then (s, false)
  else
    match findParam EXTRA_BYTES_PER_ITEM s id false with
    | (s1, none) => (s1, false)
    | (s1, some _) =>
      if address < s1.start_address_ ||
          ((s1.start_address_ : Int) + s1.data_length_ - data_length < address) then (s1, false)
      else (s1, true)

/-- `GroupSyncRead::getData` (lines 245-271). -/
def getData (EXTRA_BYTES_PER_ITEM : Nat) (s : GroupSyncRead Port) (id address data_length : Nat) :
    GroupSyncRead Port × Nat :=
  match isAvailable EXTRA_BYTES_PER_ITEM s id address data_length with
  | (s1, false) => (s1, 0)
  | (s1, true) =>
    match findParam EXTRA_BYTES_PER_ITEM s1 id false with
    | (s2, none) => (s2, 0)
    | (s2, some item_buffer_pointer) =>
      let buf := s2.param_.getD []
      let p := item_buffer_pointer + (address - s2.start_address_)
      if data_length = 1 then (s2, buf.getD p 0)
      else if data_length = 2 then (s2, DXL_MAKEWORD (buf.getD p 0) (buf.getD (p + 1) 0))
      else if data_length = 4 then
        (s2, DXL_MAKEDWORD (DXL_MAKEWORD (buf.getD p 0) (buf.getD (p + 1) 0))
          (DXL_MAKEWORD (buf.getD (p + 2) 0) (buf.getD (p + 3) 0)))
      else (s2, 0)

/-- `GroupSyncRead::getError` (lines 273-292).  The third component is the
byte stored in `error[0]`, if one is stored. -/
def getError (EXTRA_BYTES_PER_ITEM : Nat) (s : GroupSyncRead Port) (id : Nat) :
    GroupSyncRead Port × Bool × Option Nat :=
  if noHandlerOrV1 s || s.last_result_ == false then (s, false, none)
  else
    match findParam EXTRA_BYTES_PER_ITEM s id false with
    | (s1, none) => (s1, false, none)
    | (s1, some item_buffer_pointer) =>
      let e := (s1.param_.getD []).getD (item_buffer_pointer + s1.data_length_) 0
      (s1, e != 0, some e)

/-- The ID zone: the first `count_ids_` bytes of the array. -/
def idZone (s : GroupSyncRead Port) : List Nat :=
  match s.param_ with
  | none => []
  | some buf => buf.take s.count_ids_

/-- The payload zone: the bytes of the array from offset `max_ids_` on. -/
def payloadZone (s : GroupSyncRead Port) : List Nat :=
  match s.param_ with
  | none => []
  | some buf => buf.drop s.max_ids_

/-- The payload record of slot `i`: `data_length_ + 1` bytes at offset
`max_ids_ + i * (data_length_ + 1)`. -/
def record (s : GroupSyncRead Port) (i : Nat) : List Nat :=
  ((s.param_.getD []).drop (s.max_ids_ + i * (s.data_length_ + 1))).take (s.data_length_ + 1)

/-- A packet handler for protocol 2.0 whose port state is the list of
responses still to come: `readRx` hands out the next one; `syncReadTx`
succeeds. -/
def queueHandler : PacketHandler (List (RxOutcome Unit)) where
  getProtocolVersion := 2
  syncReadTx := fun port _ _ _ _ => (port, COMM_SUCCESS)
  readRx := fun port _ _ =>
    match port with
    | some (o :: rest) => ⟨some rest, o.result, o.data, o.error⟩
    | _ => ⟨port, COMM_RX_FAIL, [], none⟩

/-- The spec's scenario state: packet handler `queueHandler`, window
`(start_address_ = 36, data_length_ = 4)`, capacity 3, a self-allocated array
`buf` with `count` registered IDs. -/
def windowState (port : Option (List (RxOutcome Unit))) (buf : List Nat) (count : Nat)
    (last_result : Bool) : GroupSyncRead (List (RxOutcome Unit)) :=
  { port_ := port
    ph_ := some queueHandler
    last_result_ := last_result
    is_user_buffer_ := false
    max_ids_ := 3
    count_ids_ := count
    param_ := some buf
    start_address_ := 36
    data_length_ := 4 }

/-- The scenario state with IDs 1 and 2 registered and one free slot. -/
def twoIds : GroupSyncRead (List (RxOutcome Unit)) :=
  windowState none [1, 2, 0, 0, 0, 0, 0, 0, 0, 0, 0, 0, 0, 0, 0, 0, 0, 0] 2 false

/-- The scenario state with IDs 1, 2, 3 registered and nothing received
yet: the ID zone is `[1, 2, 3]` and the payload zone is still blank. -/
def threeIds (port : Option (List (RxOutcome Unit))) (last_result : Bool) :
    GroupSyncRead (List (RxOutcome Unit)) :=
  windowState port [1, 2, 3, 0, 0, 0, 0, 0, 0, 0, 0, 0, 0, 0, 0, 0, 0, 0] 3 last_result

/-- The scenario state after the spec's receive cycle: device 1 delivered
`78 56 34 12` with status 0, device 2 `01 00 00 00` with status 1, device 3
`00 00 00 00` with status 0. -/
def afterReceive (port : Option (List (RxOutcome Unit))) :
    GroupSyncRead (List (RxOutcome Unit)) :=
  windowState port [1, 2, 3, 0x78, 0x56, 0x34, 0x12, 0, 1, 0, 0, 0, 1, 0, 0, 0, 0, 0] 3 true

/-- The three successful responses of the spec's scenario. -/
def scenarioResponses : List (RxOutcome Unit) :=
  [⟨none, COMM_SUCCESS, [0x78, 0x56, 0x34, 0x12], some 0⟩,
    ⟨none, COMM_SUCCESS, [1, 0, 0, 0], some 1⟩,
    ⟨none, COMM_SUCCESS, [0, 0, 0, 0], some 0⟩]

/-- The port state after the first `j` calls of `readRx` in `rxPacket`, when
none of them stops the loop. -/
def rxPort (ph : PacketHandler Port) (id length : Nat) : Nat → Option Port → Option Port
  | 0, port => port
  | j + 1, port => rxPort ph id length j (ph.readRx port id length).port

/-- What the call of `readRx` for index `j` does. -/
def rxOutcome (ph : PacketHandler Port) (id length : Nat) (j : Nat) (port : Option Port) :
    RxOutcome Port :=
  ph.readRx (rxPort ph id length j port) id length

/-- The array after the first `j` calls of `readRx` in `rxPacket`, the first
of them storing at offset `p`. -/
def rxStore (ph : PacketHandler Port) (id length : Nat) :
    Nat → Option Port → List Nat → Nat → List Nat
  | 0, _, buf, _ => buf
  | j + 1, port, buf, p =>
    rxStore ph id length j (ph.readRx port id length).port
      (storeRx buf p length (ph.readRx port id length)) (p + (length + 1))

/-- The composition the spec gives for `txRxPacket`, in the spec's words:
`transmitRequest()`; if not success, return that status; else return
`receiveResponses()`.  It has no guard of its own. -/
def txThenRx (s : GroupSyncRead Port) (id : Nat) : GroupSyncRead Port × Int × List Nat :=
  match txPacket s with
  | (s1, r) => if r ≠ COMM_SUCCESS then (s1, r, []) else rxPacket s1 id

/-- The slot index of `id`: the index at which the search loop of `findParam`
finds it among the registered IDs, `none` when it is not registered or there
is no array. -/
def slotIndex (s : GroupSyncRead Port) (id : Nat) : Option Nat :=
  match s.param_ with
  | none => none
  | some buf => findParam.loop buf id s.count_ids_ 0

/-- A call of a member function on an existing object, with its arguments. -/
inductive Op (Port : Type) where
  | init (port : Option Port) (ph : Option (PacketHandler Port))
  | setBuffer (buffer_pointer : Option (List Nat)) (buffer_size : Nat)
  | addParam (id : Nat)
  | removeParam (id : Nat)
  | clearParam
  | txPacket
  | rxPacket (id : Nat)
  | txRxPacket (id : Nat)
  | isAvailable (id address data_length : Nat)
  | getData (id address data_length : Nat)
  | getError (id : Nat)

/-- The state after a call. -/
def step (EXTRA_BYTES_PER_ITEM : Nat) (s : GroupSyncRead Port) : Op Port → GroupSyncRead Port
  | .init port ph => init s port ph
  | .setBuffer buffer_pointer buffer_size =>
    (setBuffer EXTRA_BYTES_PER_ITEM s buffer_pointer buffer_size).1
  | .addParam id => (addParam EXTRA_BYTES_PER_ITEM s id).1
  | .removeParam id => removeParam s id
  | .clearParam => clearParam s
  | .txPacket => (txPacket s).1
  | .rxPacket id => (rxPacket s id).1
  | .txRxPacket id => (txRxPacket s id).1
  | .isAvailable id address data_length =>
    (isAvailable EXTRA_BYTES_PER_ITEM s id address data_length).1
  | .getData id address data_length => (getData EXTRA_BYTES_PER_ITEM s id address data_length).1
  | .getError id => (getError EXTRA_BYTES_PER_ITEM s id).1

/-- The status a call of `rxPacket` or `txRxPacket` returns; `none` for the
other member functions. -/
def rxStatus (s : GroupSyncRead Port) : Op Port → Option Int
  | .rxPacket id => some (rxPacket s id).2.1
  | .txRxPacket id => some (txRxPacket s id).2.1
  | _ => none

/-- The state after a sequence of calls. -/
def runOps (EXTRA_BYTES_PER_ITEM : Nat) (s : GroupSyncRead Port) :
    List (Op Port) → GroupSyncRead Port
  | [] => s
  | op :: ops => runOps EXTRA_BYTES_PER_ITEM (step EXTRA_BYTES_PER_ITEM s op) ops

/-- No call of `rxPacket` or `txRxPacket` in the sequence returns
`COMM_SUCCESS`. -/
def noRxSuccess (EXTRA_BYTES_PER_ITEM : Nat) (s : GroupSyncRead Port) : List (Op Port) → Bool
  | [] => true
  | op :: ops =>
    (rxStatus s op != some COMM_SUCCESS) &&
      noRxSuccess EXTRA_BYTES_PER_ITEM (step EXTRA_BYTES_PER_ITEM s op) ops

/-- The caller of `setBuffer` keeps its side: an array handed in has at least
`buffer_size` bytes. -/
def Op.honest : Op Port → Bool
  | .setBuffer (some buf) buffer_size => decide (buffer_size ≤ buf.length)
  | _ => true

/-- The member functions that neither clear the table, nor replace the array,
nor remove an ID: `addParam`, `txPacket`, `rxPacket`, `txRxPacket` and the
three accessors. -/
def Op.keepsSlots : Op Port → Bool
  | .init _ _ => false
  | .setBuffer _ _ => false
  | .removeParam _ => false
  | .clearParam => false
  | _ => true

/-- The registered IDs are pairwise distinct and lie in the array:
`count_ids_ ≤ max_ids_`, and an array has room for `max_ids_` IDs and no ID
twice among its first `count_ids_` bytes. -/
def DistinctIds (s : GroupSyncRead Port) : Prop :=
  s.count_ids_ ≤ s.max_ids_ ∧
    ∀ buf, s.param_ = some buf → s.max_ids_ ≤ buf.length ∧ (buf.take s.count_ids_).Nodup

/-- The state after the allocation in `findParam` (lines 104-112): a fresh
self-owned array for `max_ids_` slots and no IDs. -/
def allocated (EXTRA_BYTES_PER_ITEM : Nat) (s : GroupSyncRead Port) : GroupSyncRead Port :=
  { s with
    param_ := some (List.replicate (s.max_ids_ * (EXTRA_BYTES_PER_ITEM + s.data_length_ + 1)) 0)
    is_user_buffer_ := false
    count_ids_ := 0 }

/-- State `t` has the table of state `s`: the same window, capacity, count
and packet handler, an array exactly when `s` has one, of the same length
and with the same bytes below offset `max_ids_` (the ID zone). -/
def SameIds (s t : GroupSyncRead Port) : Prop :=
  t.max_ids_ = s.max_ids_ ∧ t.count_ids_ = s.count_ids_ ∧
  t.data_length_ = s.data_length_ ∧ t.start_address_ = s.start_address_ ∧
  noHandlerOrV1 t = noHandlerOrV1 s ∧
  (s.param_ = none → t.param_ = none) ∧
  ∀ buf, s.param_ = some buf →
    ∃ buf1, t.param_ = some buf1 ∧ buf1.length = buf.length ∧
      ∀ x, x < s.max_ids_ → buf1[x]? = buf[x]?

end GroupSyncRead

namespace GroupSyncRead

variable {Port : Type}

/-! ## The search loop of `findParam` -/

theorem findParam.loop_some {buf : List Nat} {id : Nat} :
    ∀ (n i j : Nat), findParam.loop buf id n i = some j →
      i ≤ j ∧ j < i + n ∧ buf.getD j 0 = id ∧ ∀ k, i ≤ k → k < j → buf.getD k 0 ≠ id := by
  intro n
  induction n with
  | zero => intro i j h; simp [findParam.loop] at h
  | succ n ih =>
    intro i j h
    rw [findParam.loop] at h
    by_cases hi : buf.getD i 0 = id
    · rw [if_pos hi] at h
      have hij : i = j := by simpa using h
      subst hij
      exact ⟨le_refl _, by omega, hi, fun k h1 h2 => by omega⟩
    · rw [if_neg hi] at h
      obtain ⟨h1, h2, h3, h4⟩ := ih (i + 1) j h
      refine ⟨by omega, by omega, h3, ?_⟩
      intro k hk1 hk2
      by_cases hki : k = i
      · subst hki; exact hi
      · exact h4 k (by omega) hk2

theorem findParam.loop_none {buf : List Nat} {id : Nat} :
    ∀ (n i : Nat), findParam.loop buf id n i = none ↔
      ∀ k, i ≤ k → k < i + n → buf.getD k 0 ≠ id := by
  intro n
  induction n with
  | zero =>
    intro i
    simp only [findParam.loop, true_iff]
    intro k h1 h2
    omega
  | succ n ih =>
    intro i
    rw [findParam.loop]
    by_cases hi : buf.getD i 0 = id
    · rw [if_pos hi]
      constructor
      · intro h; simp at h
      · intro h; exact absurd hi (h i (le_refl _) (by omega))
    · rw [if_neg hi, ih (i + 1)]
      constructor
      · intro h k hk1 hk2
        by_cases hki : k = i
        · subst hki; exact hi
        · exact h k (by omega) (by omega)
      · intro h k hk1 hk2
        exact h k (by omega) (by omega)

/-- The search finds an ID that is among the first `n` bytes of the array. -/
theorem findParam.loop_of_mem {buf : List Nat} {id n : Nat}
    (hmem : id ∈ buf.take n) : ∃ j, findParam.loop buf id n 0 = some j := by
  cases h : findParam.loop buf id n 0 with
  | some j => exact ⟨j, rfl⟩
  | none =>
    exfalso
    rw [findParam.loop_none] at h
    obtain ⟨k, hk, hkid⟩ := List.getElem_of_mem hmem
    have hk' : k < n ∧ k < buf.length := by
      have := hk
      simp only [List.length_take] at this
      omega
    apply h k (Nat.zero_le _) (by omega)
    rw [List.getElem_take] at hkid
    rw [List.getD_eq_getElem _ _ hk'.2]
    exact hkid

/-- The search does not find an ID that is not in the first `n` bytes. -/
theorem findParam.loop_of_not_mem {buf : List Nat} {id n : Nat} (hn : n ≤ buf.length)
    (hmem : id ∉ buf.take n) : findParam.loop buf id n 0 = none := by
  rw [findParam.loop_none]
  intro k _ hk heq
  apply hmem
  have hkl : k < buf.length := by omega
  rw [List.getD_eq_getElem _ _ hkl] at heq
  rw [List.mem_iff_getElem]
  refine ⟨k, by simp only [List.length_take]; omega, ?_⟩
  rw [List.getElem_take]
  exact heq

end GroupSyncRead

namespace GroupSyncRead

variable {Port : Type}

/-! ## `findParam` and `addParam` -/

/-- With an array, `findParam` of a registered ID changes nothing and returns
the offset of the slot the search found. -/
theorem findParam_found (E : Nat) (s : GroupSyncRead Port) (id : Nat) (add : Bool)
    (buf : List Nat) (i : Nat) (hbuf : s.param_ = some buf)
    (hi : findParam.loop buf id s.count_ids_ 0 = some i) :
    findParam E s id add = (s, some (s.max_ids_ + i * (s.data_length_ + 1))) := by
  simp [findParam, hbuf, hi]

/-- With an array, `findParam` of an ID that is not registered fails when the
table is full or nothing may be added. -/
theorem findParam_full (E : Nat) (s : GroupSyncRead Port) (id : Nat) (add : Bool)
    (buf : List Nat) (hbuf : s.param_ = some buf)
    (hi : findParam.loop buf id s.count_ids_ 0 = none)
    (hfull : s.max_ids_ ≤ s.count_ids_ ∨ add = false) :
    findParam E s id add = (s, none) := by
  rcases hfull with h | h
  · simp [findParam, hbuf, hi, h]
  · simp [findParam, hbuf, hi, h]

/-- With an array, `findParam` appends an ID that is not registered when there
is room. -/
theorem findParam_append (E : Nat) (s : GroupSyncRead Port) (id : Nat)
    (buf : List Nat) (hbuf : s.param_ = some buf)
    (hi : findParam.loop buf id s.count_ids_ 0 = none)
    (hroom : s.count_ids_ < s.max_ids_) :
    findParam E s id true =
      ({ s with param_ := some (buf.set s.count_ids_ id), count_ids_ := s.count_ids_ + 1 },
        some (s.max_ids_ + s.count_ids_ * (s.data_length_ + 1))) := by
  have : ¬ (s.max_ids_ ≤ s.count_ids_) := by omega
  simp [findParam, hbuf, hi, this]

/-- Without an array, `findParam` allocates one and then works on the state
with the fresh array and no IDs. -/
theorem findParam_alloc (E : Nat) (s : GroupSyncRead Port) (id : Nat) (add : Bool)
    (hbuf : s.param_ = none) :
    findParam E s id add = findParam E
      { s with
        param_ := some (List.replicate (s.max_ids_ * (E + s.data_length_ + 1)) 0)
        is_user_buffer_ := false
        count_ids_ := 0 } id add := by
  simp [findParam, hbuf]

/-- After an ID has been stored at index `c`, where the search over the first
`c` bytes did not find it, the search over `c + 1` bytes finds it at `c`. -/
theorem findParam.loop_after_set {buf : List Nat} {id c : Nat} (hc : c < buf.length)
    (hi : findParam.loop buf id c 0 = none) :
    findParam.loop (buf.set c id) id (c + 1) 0 = some c := by
  cases h : findParam.loop (buf.set c id) id (c + 1) 0 with
  | none =>
    exfalso
    rw [findParam.loop_none] at h
    apply h c (Nat.zero_le _) (by omega)
    rw [List.getD_eq_getElem _ _ (by simpa using hc)]
    simp
  | some j =>
    obtain ⟨_, h2, h3, h4⟩ := findParam.loop_some _ _ _ h
    rw [findParam.loop_none] at hi
    by_cases hjc : j = c
    · rw [hjc]
    · exfalso
      have hj : j < c := by omega
      apply hi j (Nat.zero_le _) (by omega)
      have hjl : j < buf.length := by omega
      rw [List.getD_eq_getElem _ _ (by simpa using hjl)] at h3
      rw [List.getD_eq_getElem _ _ hjl]
      rw [List.getElem_set_ne (by omega)] at h3
      exact h3

end GroupSyncRead

namespace GroupSyncRead

variable {Port : Type}

/-- Past its guard, `addParam` on a state without an array is `addParam` on
the state with the freshly allocated array and no IDs. -/
theorem addParam_alloc (E : Nat) (s : GroupSyncRead Port) (id : Nat) (hbuf : s.param_ = none)
    (hg : noHandlerOrV1 s = false) :
    addParam E s id = addParam E
      { s with
        param_ := some (List.replicate (s.max_ids_ * (E + s.data_length_ + 1)) 0)
        is_user_buffer_ := false
        count_ids_ := 0 } id := by
  have hg1 : noHandlerOrV1
      { s with
        param_ := some (List.replicate (s.max_ids_ * (E + s.data_length_ + 1)) 0)
        is_user_buffer_ := false
        count_ids_ := 0 } = false := by
    simpa [noHandlerOrV1] using hg
  unfold addParam
  rw [findParam_alloc E s id true hbuf, hg, hg1]
  simp

/-- A successful `addParam` leaves the ID where the search finds it, at the
slot whose offset `findParam` returned (states with an array). -/
theorem addParam_then_found (E : Nat) (s : GroupSyncRead Port) (id : Nat) (buf : List Nat)
    (hbuf : s.param_ = some buf) (hfit : s.max_ids_ ≤ buf.length)
    (h1 : (addParam E s id).2 = true) :
    ∃ i buf1, (addParam E s id).1.param_ = some buf1 ∧
      findParam.loop buf1 id (addParam E s id).1.count_ids_ 0 = some i ∧
      (findParam E s id true).2 = some (s.max_ids_ + i * (s.data_length_ + 1)) ∧
      (addParam E s id).1.max_ids_ = s.max_ids_ ∧
      (addParam E s id).1.data_length_ = s.data_length_ ∧
      noHandlerOrV1 (addParam E s id).1 = false := by
  by_cases hg : noHandlerOrV1 s = true
  · simp [addParam, hg] at h1
  · have hg' : noHandlerOrV1 s = false := by simpa using hg
    cases hl : findParam.loop buf id s.count_ids_ 0 with
    | some i =>
      have hf := findParam_found E s id true buf i hbuf hl
      refine ⟨i, buf, ?_⟩
      simp [addParam, hg', hf, hbuf, hl]
    | none =>
      by_cases hroom : s.count_ids_ < s.max_ids_
      · have hf := findParam_append E s id buf hbuf hl hroom
        refine ⟨s.count_ids_, buf.set s.count_ids_ id, ?_⟩
        have hset := findParam.loop_after_set (show s.count_ids_ < buf.length by omega) hl
        simp [addParam, hg', hf, hset]
        simpa [noHandlerOrV1] using hg'
      · have hf := findParam_full E s id true buf hbuf hl (Or.inl (by omega))
        simp [addParam, hg', hf] at h1

/-- A second `addParam` of an ID whose first `addParam` succeeded changes
nothing and finds the slot of the first call (states with an array). -/
theorem addParam_again (E : Nat) (s : GroupSyncRead Port) (id : Nat) (buf : List Nat)
    (hbuf : s.param_ = some buf) (hfit : s.max_ids_ ≤ buf.length)
    (h1 : (addParam E s id).2 = true) :
    addParam E (addParam E s id).1 id = ((addParam E s id).1, true) ∧
    ∃ i, (findParam E s id true).2 = some (s.max_ids_ + i * (s.data_length_ + 1)) ∧
      findParam E (addParam E s id).1 id true =
        ((addParam E s id).1, some (s.max_ids_ + i * (s.data_length_ + 1))) := by
  obtain ⟨i, buf1, hb1, hl1, hoff, hmax, hlen, hg1⟩ := addParam_then_found E s id buf hbuf hfit h1
  have hf := findParam_found E (addParam E s id).1 id true buf1 i hb1 hl1
  rw [hmax, hlen] at hf
  refine ⟨?_, i, hoff, hf⟩
  generalize addParam E s id = r at hf hg1
  simp [addParam, hg1, hf]

/-- C6: when `addParam(id)` has returned true, a second `addParam(id)` also
returns true, leaves the state (so `count_ids_` and the ID zone) unchanged,
and `findParam` resolves to the same slot index `i` and the same payload
offset `max_ids_ + i * (data_length_ + 1)` as in the first call.  The array,
when there is one, holds its ID zone. -/
theorem addParam_idempotent (E : Nat) (s : GroupSyncRead Port) (id : Nat)
    (hfit : ∀ buf, s.param_ = some buf → s.max_ids_ ≤ buf.length)
    (h1 : (addParam E s id).2 = true) :
    (addParam E (addParam E s id).1 id).2 = true ∧
    (addParam E (addParam E s id).1 id).1 = (addParam E s id).1 ∧
    (addParam E (addParam E s id).1 id).1.count_ids_ = (addParam E s id).1.count_ids_ ∧
    idZone (addParam E (addParam E s id).1 id).1 = idZone (addParam E s id).1 ∧
    ∃ i, (findParam E s id true).2 = some (s.max_ids_ + i * (s.data_length_ + 1)) ∧
      findParam E (addParam E s id).1 id true =
        ((addParam E s id).1, some (s.max_ids_ + i * (s.data_length_ + 1))) := by
  have key : addParam E (addParam E s id).1 id = ((addParam E s id).1, true) ∧
      ∃ i, (findParam E s id true).2 = some (s.max_ids_ + i * (s.data_length_ + 1)) ∧
        findParam E (addParam E s id).1 id true =
          ((addParam E s id).1, some (s.max_ids_ + i * (s.data_length_ + 1))) := by
    cases hbuf : s.param_ with
    | some buf => exact addParam_again E s id buf hbuf (hfit buf hbuf) h1
    | none =>
      have hg : noHandlerOrV1 s = false := by
        by_contra hg
        have hg' : noHandlerOrV1 s = true := by simpa using hg
        simp [addParam, hg'] at h1
      rw [addParam_alloc E s id hbuf hg] at h1 ⊢
      rw [findParam_alloc E s id true hbuf]
      exact addParam_again E _ id _ rfl
        (by simp only [List.length_replicate]
            exact Nat.le_mul_of_pos_right _ (by omega)) h1
  obtain ⟨h2, i, h3, h4⟩ := key
  refine ⟨?_, ?_, ?_, ?_, i, h3, h4⟩
  · rw [h2]
  · rw [h2]
  · rw [h2]
  · rw [h2]

/-- C6, at a state: capacity 3, IDs 1 and 2 registered, `addParam(7)` twice. -/
theorem addParam_idempotent_witness :
    (addParam extraBytesPerRecord (addParam extraBytesPerRecord (twoIds) 7).1 7).2
      = true ∧
    (addParam extraBytesPerRecord (addParam extraBytesPerRecord (twoIds) 7).1 7).1.count_ids_
      = 3 :=
  have h := addParam_idempotent extraBytesPerRecord
    (twoIds) 7
    (by intro buf hb
        simp only [twoIds, threeIds, afterReceive, windowState, Option.some.injEq] at hb
        subst hb
        decide)
    (by decide)
  ⟨h.1, by rw [h.2.2.1]; decide⟩

end GroupSyncRead

namespace GroupSyncRead

variable {Port : Type}

/-- C7: when the table is full (`count_ids_ == max_ids_`) and `id` is not
among the registered IDs, `addParam(id)` returns false and leaves
`count_ids_`, the ID zone and the payload zone unchanged; with an array the
whole state is unchanged.  A state without an array has no IDs, and an array
holds its ID zone. -/
theorem addParam_full_table (E : Nat) (s : GroupSyncRead Port) (id : Nat)
    (hinv : s.param_ = none → s.count_ids_ = 0)
    (hfit : ∀ buf, s.param_ = some buf → s.max_ids_ ≤ buf.length)
    (hfull : s.count_ids_ = s.max_ids_) (hnot : id ∉ idZone s) :
    (addParam E s id).2 = false ∧
    (addParam E s id).1.count_ids_ = s.count_ids_ ∧
    idZone (addParam E s id).1 = idZone s ∧
    payloadZone (addParam E s id).1 = payloadZone s ∧
    (∀ buf, s.param_ = some buf → (addParam E s id).1 = s) := by
  by_cases hg : noHandlerOrV1 s = true
  · simp [addParam, hg]
  · have hg' : noHandlerOrV1 s = false := by simpa using hg
    cases hbuf : s.param_ with
    | some buf =>
      have hlen := hfit buf hbuf
      have hl : findParam.loop buf id s.count_ids_ 0 = none :=
        findParam.loop_of_not_mem (by omega) (by simpa [idZone, hbuf] using hnot)
      have hf := findParam_full E s id true buf hbuf hl (Or.inl (by omega))
      simp [addParam, hg', hf]
    | none =>
      have hc := hinv hbuf
      have hm : s.max_ids_ = 0 := by omega
      simp [addParam, hg', findParam, hbuf, hm, hc, findParam.loop, idZone, payloadZone]

/-- C7, at a state: capacity 3 with IDs 1, 2, 3 registered, `addParam(4)`. -/
theorem addParam_full_table_witness :
    (addParam extraBytesPerRecord (threeIds none false) 4).2
      = false ∧
    (addParam extraBytesPerRecord (threeIds none false) 4).1
      = threeIds none false :=
  have h := addParam_full_table extraBytesPerRecord
    (threeIds none false) 4
    (by intro hb; simp [twoIds, threeIds, afterReceive, windowState] at hb)
    (by intro buf hb
        simp only [twoIds, threeIds, afterReceive, windowState, Option.some.injEq] at hb
        subst hb
        decide)
    rfl (by decide)
  ⟨h.1, h.2.2.2.2 _ rfl⟩

/-- C8: with a packet handler that is not protocol 1.0, if `id` is not
registered and `count_ids_ = c < max_ids_`, `addParam(id)` returns true, puts
`id` at index `c` of the ID zone and leaves the entries before it, makes
`count_ids_` `c + 1`, leaves the payload zone of an existing array
unchanged, and the slot `findParam` resolves to, in that call and afterwards,
is at offset `max_ids_ + c * (data_length_ + 1)`.  A state without an array
has no IDs, and an array holds its ID zone. -/
theorem addParam_appends (E : Nat) (s : GroupSyncRead Port) (id c : Nat)
    (hg : noHandlerOrV1 s = false)
    (hinv : s.param_ = none → s.count_ids_ = 0)
    (hfit : ∀ buf, s.param_ = some buf → s.max_ids_ ≤ buf.length)
    (hnot : id ∉ idZone s) (hc : s.count_ids_ = c) (hlt : c < s.max_ids_) :
    (addParam E s id).2 = true ∧
    (addParam E s id).1.count_ids_ = c + 1 ∧
    (addParam E s id).1.max_ids_ = s.max_ids_ ∧
    idZone (addParam E s id).1 = idZone s ++ [id] ∧
    (idZone s).length = c ∧
    (∀ buf, s.param_ = some buf → payloadZone (addParam E s id).1 = payloadZone s) ∧
    (findParam E s id true).2 = some (s.max_ids_ + c * (s.data_length_ + 1)) ∧
    (findParam E (addParam E s id).1 id false).2 =
      some (s.max_ids_ + c * (s.data_length_ + 1)) := by
  have core : ∀ (t : GroupSyncRead Port) (buf : List Nat), t.param_ = some buf →
      noHandlerOrV1 t = false → t.max_ids_ ≤ buf.length →
      findParam.loop buf id t.count_ids_ 0 = none → t.count_ids_ < t.max_ids_ →
      (addParam E t id).2 = true ∧
      (addParam E t id).1.count_ids_ = t.count_ids_ + 1 ∧
      (addParam E t id).1.max_ids_ = t.max_ids_ ∧
      idZone (addParam E t id).1 = idZone t ++ [id] ∧
      (idZone t).length = t.count_ids_ ∧
      payloadZone (addParam E t id).1 = payloadZone t ∧
      (findParam E t id true).2 = some (t.max_ids_ + t.count_ids_ * (t.data_length_ + 1)) ∧
      (findParam E (addParam E t id).1 id false).2 =
        some (t.max_ids_ + t.count_ids_ * (t.data_length_ + 1)) := by
    intro t buf hbuf hgt hlen hl hroom
    have hf := findParam_append E t id buf hbuf hl hroom
    have hclen : t.count_ids_ < buf.length := by omega
    have hset := findParam.loop_after_set hclen hl
    have ha : addParam E t id =
        ({ t with param_ := some (buf.set t.count_ids_ id), count_ids_ := t.count_ids_ + 1 },
          true) := by
      simp [addParam, hgt, hf]
    have hf2 := findParam_found E
      { t with param_ := some (buf.set t.count_ids_ id), count_ids_ := t.count_ids_ + 1 }
      id false (buf.set t.count_ids_ id) t.count_ids_ rfl hset
    rw [ha, hf, hf2]
    refine ⟨rfl, rfl, rfl, ?_, ?_, ?_, rfl, rfl⟩
    · simp only [idZone, hbuf]
      have htake : (buf.set t.count_ids_ id).take t.count_ids_ = buf.take t.count_ids_ := by
        apply List.ext_getElem?
        intro k
        rw [List.getElem?_take, List.getElem?_take]
        split
        · rw [List.getElem?_set_ne (by omega)]
        · rfl
      rw [List.take_succ, htake]
      simp [hclen]
    · simp only [idZone, hbuf, List.length_take]
      omega
    · simp only [payloadZone, hbuf]
      exact List.drop_set_of_lt _ _ hroom
  cases hbuf : s.param_ with
  | some buf =>
    have hlen := hfit buf hbuf
    have hl : findParam.loop buf id s.count_ids_ 0 = none :=
      findParam.loop_of_not_mem (by omega) (by simpa [idZone, hbuf] using hnot)
    obtain ⟨h1, h2, h3, h4, h5, h6, h7, h8⟩ := core s buf hbuf hg hlen hl (by omega)
    subst hc
    refine ⟨h1, h2, h3, h4, h5, ?_, h7, h8⟩
    intro _ _
    exact h6
  | none =>
    have hc0 := hinv hbuf
    have hz : idZone s = [] := by simp [idZone, hbuf]
    have hpos : 0 < s.max_ids_ * (E + s.data_length_ + 1) :=
      Nat.mul_pos (by omega) (by omega)
    obtain ⟨h1, h2, h3, h4, h5, _, h7, h8⟩ := core
      { s with
        param_ := some (List.replicate (s.max_ids_ * (E + s.data_length_ + 1)) 0)
        is_user_buffer_ := false
        count_ids_ := 0 }
      _ rfl (by simpa [noHandlerOrV1] using hg)
      (by simp only [List.length_replicate]
          exact Nat.le_mul_of_pos_right _ (by omega))
      (by simp [findParam.loop]) (by simp only; omega)
    rw [← addParam_alloc E s id hbuf hg] at h1 h2 h3 h4 h8
    rw [← findParam_alloc E s id true hbuf] at h7
    have hc' : c = 0 := by omega
    subst hc'
    refine ⟨h1, h2, h3, ?_, by simp [hz], ?_, h7, h8⟩
    · rw [h4, hz]
      simp [idZone]
    · intro buf hb
      simp at hb

/-- C8, at a state: capacity 3, IDs 1 and 2 registered, `addParam(7)`. -/
theorem addParam_appends_witness :
    (addParam extraBytesPerRecord (twoIds) 7).2
      = true ∧
    idZone (addParam extraBytesPerRecord (twoIds) 7).1
      = [1, 2, 7] ∧
    (findParam extraBytesPerRecord (twoIds) 7 true).2
      = some 13 :=
  have h := addParam_appends extraBytesPerRecord
    (twoIds) 7 2
    (by decide) (by intro hb; simp [twoIds, threeIds, afterReceive, windowState] at hb)
    (by intro buf hb
        simp only [twoIds, threeIds, afterReceive, windowState, Option.some.injEq] at hb
        subst hb
        decide)
    (by decide) rfl (by decide)
  ⟨h.1, by rw [h.2.2.2.1]; decide, by rw [h.2.2.2.2.2.2.1]; decide⟩

/-! ## `isAvailable` and `getData` -/

/-- When `isAvailable` returns true: there is a packet handler that is not
protocol 1.0, the last receive succeeded, the ID has a slot in the array, the
field lies in the window, and the state is unchanged. -/
theorem isAvailable_true (E : Nat) (s : GroupSyncRead Port) (id a w : Nat)
    (h : (isAvailable E s id a w).2 = true) :
    noHandlerOrV1 s = false ∧ s.last_result_ = true ∧
    (∃ buf i, s.param_ = some buf ∧ findParam.loop buf id s.count_ids_ 0 = some i) ∧
    s.start_address_ ≤ a ∧ a + w ≤ s.start_address_ + s.data_length_ ∧
    (isAvailable E s id a w).1 = s := by
  by_cases hg : noHandlerOrV1 s = true
  · simp [isAvailable, hg] at h
  have hg' : noHandlerOrV1 s = false := by simpa using hg
  by_cases hl : s.last_result_ = true
  swap
  · have hl' : s.last_result_ = false := by simpa using hl
    simp [isAvailable, hl'] at h
  cases hbuf : s.param_ with
  | none =>
    simp [isAvailable, hg', hl, findParam, hbuf, findParam.loop] at h
  | some buf =>
    cases hi : findParam.loop buf id s.count_ids_ 0 with
    | none =>
      have hf := findParam_full E s id false buf hbuf hi (Or.inr rfl)
      simp [isAvailable, hg', hl, hf] at h
    | some i =>
      have hf := findParam_found E s id false buf i hbuf hi
      simp only [isAvailable, hg', hl, hf] at h
      by_cases hr : a < s.start_address_ ∨
          ((s.start_address_ : Int) + s.data_length_ - w < a)
      · simp [hr] at h
      · have hr1 : ¬ (a < s.start_address_) := fun h1 => hr (Or.inl h1)
        have hr2 : ¬ ((s.start_address_ : Int) + s.data_length_ - w < a) :=
          fun h1 => hr (Or.inr h1)
        refine ⟨hg', hl, ⟨buf, i, rfl, hi⟩, by omega, by omega, ?_⟩
        simp [isAvailable, hg', hl, hf, hr1, hr2]

/-- The other direction: under the conditions of `isAvailable_true`, the
function returns true. -/
theorem isAvailable_of (E : Nat) (s : GroupSyncRead Port) (id a w : Nat) (buf : List Nat) (i : Nat)
    (hg : noHandlerOrV1 s = false) (hl : s.last_result_ = true) (hbuf : s.param_ = some buf)
    (hi : findParam.loop buf id s.count_ids_ 0 = some i)
    (h1 : s.start_address_ ≤ a) (h2 : a + w ≤ s.start_address_ + s.data_length_) :
    isAvailable E s id a w = (s, true) := by
  have hf := findParam_found E s id false buf i hbuf hi
  have hr1 : ¬ (a < s.start_address_) := by omega
  have hr2 : ¬ ((s.start_address_ : Int) + s.data_length_ - w < a) := by omega
  simp [isAvailable, hg, hl, hf, hr1, hr2]

end GroupSyncRead

namespace GroupSyncRead

variable {Port : Type}

/-- C4: with a packet handler that is not protocol 1.0, `last_result_` true
and `id` registered, `isAvailable(id, a, w)` is true exactly when
`start_address_ ≤ a` and `a + w ≤ start_address_ + data_length_`, as
integers without wrap-around. -/
theorem isAvailable_iff_in_window (E : Nat) (s : GroupSyncRead Port) (id a w : Nat)
    (hg : noHandlerOrV1 s = false) (hl : s.last_result_ = true) (hreg : id ∈ idZone s) :
    (isAvailable E s id a w).2 = true ↔
      (s.start_address_ ≤ a ∧ a + w ≤ s.start_address_ + s.data_length_) := by
  constructor
  · intro h
    obtain ⟨_, _, _, h1, h2, _⟩ := isAvailable_true E s id a w h
    exact ⟨h1, h2⟩
  · rintro ⟨h1, h2⟩
    cases hbuf : s.param_ with
    | none => simp [idZone, hbuf] at hreg
    | some buf =>
      obtain ⟨i, hi⟩ := findParam.loop_of_mem (show id ∈ buf.take s.count_ids_ by
        simpa [idZone, hbuf] using hreg)
      rw [isAvailable_of E s id a w buf i hg hl hbuf hi h1 h2]

/-- C4, at the spec's scenario: window (36, 4), IDs 1, 2, 3 after a
successful receive; `isAvailable(1, 40, 2)` is false and
`isAvailable(1, 38, 2)` is true. -/
theorem isAvailable_iff_in_window_witness :
    (isAvailable extraBytesPerRecord
      (afterReceive none)
      1 40 2).2 = false ∧
    (isAvailable extraBytesPerRecord
      (afterReceive none)
      1 38 2).2 = true :=
  ⟨by
    have h := isAvailable_iff_in_window extraBytesPerRecord
      (afterReceive none)
      1 40 2 (by decide) rfl (by decide)
    cases hv : (isAvailable extraBytesPerRecord
      (afterReceive none)
      1 40 2).2 with
    | false => rfl
    | true =>
      have h2 := (h.mp hv).2
      simp [twoIds, threeIds, afterReceive, windowState] at h2,
   (isAvailable_iff_in_window extraBytesPerRecord
      (afterReceive none)
      1 38 2 (by decide) rfl (by decide)).mpr ⟨by decide, by decide⟩⟩

/-- Reading byte `j` of the `n` bytes at offset `off` is reading byte
`off + j` of the array. -/
theorem getD_take_drop (buf : List Nat) (off n j : Nat) (hj : j < n) :
    ((buf.drop off).take n).getD j 0 = buf.getD (off + j) 0 := by
  simp [List.getD_eq_getElem?_getD, List.getElem?_take, hj, List.getElem?_drop]

/-- A read from a byte array gives a byte. -/
theorem getD_lt_256 (buf : List Nat) (hb : ∀ b ∈ buf, b < 256) (j : Nat) :
    buf.getD j 0 < 256 := by
  by_cases hj : j < buf.length
  · rw [List.getD_eq_getElem _ _ hj]
    exact hb _ (List.getElem_mem _)
  · rw [List.getD_eq_default _ _ (by omega)]
    omega

/-- What `getData` returns when `isAvailable` is true: the bytes at the
field's offset in the slot, put together by the width. -/
theorem getData_of_available (E : Nat) (s : GroupSyncRead Port) (id a w : Nat)
    (buf : List Nat) (i : Nat) (hbuf : s.param_ = some buf)
    (hi : findParam.loop buf id s.count_ids_ 0 = some i)
    (hav : (isAvailable E s id a w).2 = true) :
    getData E s id a w =
      (s, if w = 1 then
          buf.getD (s.max_ids_ + i * (s.data_length_ + 1) + (a - s.start_address_)) 0
        else if w = 2 then
          DXL_MAKEWORD
            (buf.getD (s.max_ids_ + i * (s.data_length_ + 1) + (a - s.start_address_)) 0)
            (buf.getD (s.max_ids_ + i * (s.data_length_ + 1) + (a - s.start_address_) + 1) 0)
        else if w = 4 then
          DXL_MAKEDWORD
            (DXL_MAKEWORD
              (buf.getD (s.max_ids_ + i * (s.data_length_ + 1) + (a - s.start_address_)) 0)
              (buf.getD (s.max_ids_ + i * (s.data_length_ + 1) + (a - s.start_address_) + 1) 0))
            (DXL_MAKEWORD
              (buf.getD (s.max_ids_ + i * (s.data_length_ + 1) + (a - s.start_address_) + 2) 0)
              (buf.getD (s.max_ids_ + i * (s.data_length_ + 1) + (a - s.start_address_) + 3) 0))
        else 0) := by
  obtain ⟨_, _, _, _, _, hst⟩ := isAvailable_true E s id a w hav
  have hpair : isAvailable E s id a w = (s, true) := Prod.ext hst hav
  have hf := findParam_found E s id false buf i hbuf hi
  simp only [getData, hpair, hf, hbuf, Option.getD_some]
  split_ifs <;> rfl

/-- C3: when `isAvailable(id, a, w)` is true, `getData(id, a, w)` returns
for `w` = 1, 2, 4 the little-endian value of the `w` bytes at offset
`a - start_address_` of the payload record of the slot of `id`, and 0 for
every other `w`; when `isAvailable(id, a, w)` is false it returns 0.  The
array holds bytes. -/
theorem getData_little_endian (E : Nat) (s : GroupSyncRead Port) (id a w : Nat)
    (hbytes : ∀ buf, s.param_ = some buf → ∀ b ∈ buf, b < 256) :
    ((isAvailable E s id a w).2 = true →
      ∃ i, findParam.loop (s.param_.getD []) id s.count_ids_ 0 = some i ∧
        (w = 1 ∨ w = 2 ∨ w = 4 →
          (getData E s id a w).2 =
            ∑ k ∈ Finset.range w, (record s i).getD (a - s.start_address_ + k) 0 * 256 ^ k) ∧
        (w ≠ 1 → w ≠ 2 → w ≠ 4 → (getData E s id a w).2 = 0)) ∧
    ((isAvailable E s id a w).2 = false → (getData E s id a w).2 = 0) := by
  constructor
  · intro hav
    obtain ⟨_, _, ⟨buf, i, hbuf, hi⟩, h1, h2, _⟩ := isAvailable_true E s id a w hav
    have hgd := getData_of_available E s id a w buf i hbuf hi hav
    have hb := getD_lt_256 buf (hbytes buf hbuf)
    refine ⟨i, by simpa [hbuf] using hi, ?_, ?_⟩
    · intro hw
      have hrec : ∀ k, k < w → (record s i).getD (a - s.start_address_ + k) 0 =
          buf.getD (s.max_ids_ + i * (s.data_length_ + 1) + (a - s.start_address_) + k) 0 := by
        intro k hk
        simp only [record, hbuf, Option.getD_some]
        rw [getD_take_drop _ _ _ _ (by omega)]
        congr 1
        omega
      rw [hgd]
      rcases hw with hw | hw | hw
      · subst hw
        have hrec0 := hrec 0 (by omega)
        simp only [Nat.add_zero] at hrec0
        simp only [Finset.sum_range_succ, Finset.sum_range_zero, Nat.add_zero, hrec0]
        generalize buf.getD (s.max_ids_ + i * (s.data_length_ + 1) + (a - s.start_address_)) 0
          = b0
        simp
      · subst hw
        have h0 := hb (s.max_ids_ + i * (s.data_length_ + 1) + (a - s.start_address_))
        have h1 := hb (s.max_ids_ + i * (s.data_length_ + 1) + (a - s.start_address_) + 1)
        have hrec0 := hrec 0 (by omega)
        simp only [Nat.add_zero] at hrec0
        simp only [Finset.sum_range_succ, Finset.sum_range_zero, Nat.add_zero, hrec0,
          hrec 1 (by omega)]
        generalize buf.getD (s.max_ids_ + i * (s.data_length_ + 1) + (a - s.start_address_)) 0
          = b0 at h0 ⊢
        generalize buf.getD (s.max_ids_ + i * (s.data_length_ + 1) + (a - s.start_address_) + 1) 0
          = b1 at h1 ⊢
        simp [DXL_MAKEWORD]
        omega
      · subst hw
        have h0 := hb (s.max_ids_ + i * (s.data_length_ + 1) + (a - s.start_address_))
        have h1 := hb (s.max_ids_ + i * (s.data_length_ + 1) + (a - s.start_address_) + 1)
        have h2 := hb (s.max_ids_ + i * (s.data_length_ + 1) + (a - s.start_address_) + 2)
        have h3 := hb (s.max_ids_ + i * (s.data_length_ + 1) + (a - s.start_address_) + 3)
        have hrec0 := hrec 0 (by omega)
        simp only [Nat.add_zero] at hrec0
        simp only [Finset.sum_range_succ, Finset.sum_range_zero, Nat.add_zero, hrec0,
          hrec 1 (by omega), hrec 2 (by omega), hrec 3 (by omega)]
        generalize buf.getD (s.max_ids_ + i * (s.data_length_ + 1) + (a - s.start_address_)) 0
          = b0 at h0 ⊢
        generalize buf.getD (s.max_ids_ + i * (s.data_length_ + 1) + (a - s.start_address_) + 1) 0
          = b1 at h1 ⊢
        generalize buf.getD (s.max_ids_ + i * (s.data_length_ + 1) + (a - s.start_address_) + 2) 0
          = b2 at h2 ⊢
        generalize buf.getD (s.max_ids_ + i * (s.data_length_ + 1) + (a - s.start_address_) + 3) 0
          = b3 at h3 ⊢
        simp [DXL_MAKEWORD, DXL_MAKEDWORD]
        omega
    · intro hw1 hw2 hw4
      rw [hgd]
      simp [hw1, hw2, hw4]
  · intro hav
    cases hpair : isAvailable E s id a w with
    | mk s1 b =>
      rw [hpair] at hav
      simp only at hav
      subst hav
      simp [getData, hpair]

/-- C3, at the spec's scenario after a successful receive:
`getData(1, 36, 4)` is `0x12345678` and `getData(1, 40, 2)` is 0. -/
theorem getData_little_endian_witness :
    (getData extraBytesPerRecord
      (afterReceive none)
      1 36 4).2 = 0x12345678 ∧
    (getData extraBytesPerRecord
      (afterReceive none)
      1 40 2).2 = 0 := by
  have hb : ∀ buf,
      (afterReceive none).param_
        = some buf → ∀ b ∈ buf, b < 256 := by
    intro buf hbuf
    simp only [twoIds, threeIds, afterReceive, windowState, Option.some.injEq] at hbuf
    subst hbuf
    decide
  constructor
  · obtain ⟨i, hi, h4, _⟩ := (getData_little_endian extraBytesPerRecord
      (afterReceive none)
      1 36 4 hb).1 (by decide)
    have hi0 : i = 0 := by
      have : findParam.loop ((afterReceive none).param_.getD [])
          1 (afterReceive none).count_ids_ 0
          = some 0 := by decide
      rw [this] at hi
      exact (Option.some.inj hi).symm
    subst hi0
    rw [h4 (Or.inr (Or.inr rfl))]
    simp [Finset.sum_range_succ, record, afterReceive, windowState]
  · exact (getData_little_endian extraBytesPerRecord
      (afterReceive none)
      1 40 2 hb).2 (by decide)

end GroupSyncRead

namespace GroupSyncRead

variable {Port : Type}

/-! ## The receive loop -/

/-- When the read for index `k` is the first that does not succeed, the loop
of `rxPacket` is left by `return result` with that read's result, after
`k + 1` reads. -/
theorem rxPacket.loop_fail (ph : PacketHandler Port) (id L : Nat) :
    ∀ (k n : Nat) (port : Option Port) (buf : List Nat) (p : Nat) (res : Int)
      (calls : List Nat), k < n →
      (∀ j, j < k → (rxOutcome ph id L j port).result = COMM_SUCCESS) →
      (rxOutcome ph id L k port).result ≠ COMM_SUCCESS →
      (rxPacket.loop ph id L n port buf p res calls).returned = true ∧
      (rxPacket.loop ph id L n port buf p res calls).result = (rxOutcome ph id L k port).result ∧
      (rxPacket.loop ph id L n port buf p res calls).port = rxPort ph id L (k + 1) port ∧
      (rxPacket.loop ph id L n port buf p res calls).calls = calls ++ List.replicate (k + 1) id := by
  intro k
  induction k with
  | zero =>
    intro n port buf p res calls hn _ hfail
    obtain ⟨m, rfl⟩ : ∃ m, n = m + 1 := ⟨n - 1, by omega⟩
    have hfail' : (ph.readRx port id L).result ≠ COMM_SUCCESS := hfail
    simp [rxPacket.loop, hfail', rxOutcome, rxPort]
  | succ k ih =>
    intro n port buf p res calls hn hprev hfail
    obtain ⟨m, rfl⟩ : ∃ m, n = m + 1 := ⟨n - 1, by omega⟩
    have h0 : (ph.readRx port id L).result = COMM_SUCCESS := hprev 0 (by omega)
    have hprev' : ∀ j, j < k →
        (rxOutcome ph id L j (ph.readRx port id L).port).result = COMM_SUCCESS :=
      fun j hj => hprev (j + 1) (by omega)
    have hfail' : (rxOutcome ph id L k (ph.readRx port id L).port).result ≠ COMM_SUCCESS :=
      hfail
    obtain ⟨h1, h2, h3, h4⟩ := ih m (ph.readRx port id L).port
      (storeRx buf p L (ph.readRx port id L)) (p + (L + 1)) (ph.readRx port id L).result
      (calls ++ [id]) (by omega) hprev' hfail'
    have hunf : rxPacket.loop ph id L (m + 1) port buf p res calls =
        rxPacket.loop ph id L m (ph.readRx port id L).port
          (storeRx buf p L (ph.readRx port id L)) (p + (L + 1)) (ph.readRx port id L).result
          (calls ++ [id]) := by
      simp [rxPacket.loop, h0]
    rw [hunf]
    refine ⟨h1, h2, h3, ?_⟩
    rw [h4, List.append_assoc]
    rfl

/-- When all `n` reads succeed, the loop of `rxPacket` runs to its end: `n`
reads, the array `rxStore` describes, and the last result. -/
theorem rxPacket.loop_success (ph : PacketHandler Port) (id L : Nat) :
    ∀ (n : Nat) (port : Option Port) (buf : List Nat) (p : Nat) (res : Int)
      (calls : List Nat),
      (∀ j, j < n → (rxOutcome ph id L j port).result = COMM_SUCCESS) →
      rxPacket.loop ph id L n port buf p res calls =
        ⟨rxPort ph id L n port, rxStore ph id L n port buf p,
          if n = 0 then res else COMM_SUCCESS, false, calls ++ List.replicate n id⟩ := by
  intro n
  induction n with
  | zero =>
    intro port buf p res calls _
    simp [rxPacket.loop, rxPort, rxStore]
  | succ n ih =>
    intro port buf p res calls hall
    have h0 : (ph.readRx port id L).result = COMM_SUCCESS := hall 0 (by omega)
    have hall' : ∀ j, j < n →
        (rxOutcome ph id L j (ph.readRx port id L).port).result = COMM_SUCCESS :=
      fun j hj => hall (j + 1) (by omega)
    have hunf : rxPacket.loop ph id L (n + 1) port buf p res calls =
        rxPacket.loop ph id L n (ph.readRx port id L).port
          (storeRx buf p L (ph.readRx port id L)) (p + (L + 1)) (ph.readRx port id L).result
          (calls ++ [id]) := by
      simp [rxPacket.loop, h0]
    rw [hunf, ih _ _ _ _ _ hall']
    have hres : (if n = 0 then (ph.readRx port id L).result else COMM_SUCCESS) =
        (if n + 1 = 0 then res else COMM_SUCCESS) := by
      rw [h0]
      simp
    rw [hres]
    simp only [rxPort, rxStore, List.append_assoc]
    rfl

end GroupSyncRead

namespace GroupSyncRead

variable {Port : Type}

/-- With `last_result_` false, `isAvailable` returns false and `getData`
returns 0, whatever the arguments, and the state is unchanged. -/
theorem accessors_of_last_result_false (E : Nat) (s : GroupSyncRead Port) (id a w : Nat)
    (hl : s.last_result_ = false) :
    isAvailable E s id a w = (s, false) ∧ getData E s id a w = (s, 0) := by
  have h : isAvailable E s id a w = (s, false) := by
    simp [isAvailable, hl]
  exact ⟨h, by simp [getData, h]⟩

/-- C5: with a packet handler that is not protocol 1.0 and `count_ids_ ≥ 1`
registered IDs, if the read for index `k` is the first that does not return
`COMM_SUCCESS`, then `rxPacket` makes exactly the `k + 1` reads for indices
`0..k`, returns the result of the read for index `k`, leaves `last_result_`
false whatever it was before, and afterwards `isAvailable` is false and
`getData` is 0 for every id, address and width. -/
theorem rxPacket_first_failure (s : GroupSyncRead Port) (ph : PacketHandler Port) (id k : Nat)
    (hph : s.ph_ = some ph) (hv : ph.getProtocolVersion ≠ 1) (hk : k < s.count_ids_)
    (hprev : ∀ j, j < k → (rxOutcome ph id s.data_length_ j s.port_).result = COMM_SUCCESS)
    (hfail : (rxOutcome ph id s.data_length_ k s.port_).result ≠ COMM_SUCCESS) :
    (rxPacket s id).2.1 = (rxOutcome ph id s.data_length_ k s.port_).result ∧
    (rxPacket s id).2.1 ≠ COMM_SUCCESS ∧
    (rxPacket s id).2.2 = List.replicate (k + 1) id ∧
    (rxPacket s id).1.port_ = rxPort ph id s.data_length_ (k + 1) s.port_ ∧
    (rxPacket s id).1.last_result_ = false ∧
    ∀ (E id' a w : Nat),
      (isAvailable E (rxPacket s id).1 id' a w).2 = false ∧
      (getData E (rxPacket s id).1 id' a w).2 = 0 := by
  obtain ⟨h1, h2, h3, h4⟩ := rxPacket.loop_fail ph id s.data_length_ k s.count_ids_ s.port_
    (s.param_.getD []) s.max_ids_ COMM_RX_FAIL [] hk hprev hfail
  have hc : s.count_ids_ ≠ 0 := by omega
  have hres : (rxPacket s id).2.1 = (rxOutcome ph id s.data_length_ k s.port_).result := by
    simp [rxPacket, hph, hv, hc, h1, h2]
  have hlast : (rxPacket s id).1.last_result_ = false := by
    simp [rxPacket, hph, hv, hc, h1]
  refine ⟨hres, by rw [hres]; exact hfail, ?_, ?_, hlast, ?_⟩
  · simp [rxPacket, hph, hv, hc, h1, h4]
  · simp [rxPacket, hph, hv, hc, h1, h3]
  · intro E id' a w
    obtain ⟨ha, hg⟩ := accessors_of_last_result_false E (rxPacket s id).1 id' a w hlast
    rw [ha, hg]
    exact ⟨rfl, rfl⟩

/-- C5, at a state: IDs 1, 2, 3 registered, `last_result_` true from an
earlier receive; the first read succeeds and the second returns
`COMM_RX_FAIL`.  Two reads are made, `COMM_RX_FAIL` is returned and
`getData(1, 36, 4)` is 0. -/
theorem rxPacket_first_failure_witness :
    (rxPacket (threeIds (some [⟨none, COMM_SUCCESS, [0x78, 0x56, 0x34, 0x12], some 0⟩, ⟨none, COMM_RX_FAIL, [], none⟩]) true) 9).2.1 = COMM_RX_FAIL ∧
    (rxPacket (threeIds (some [⟨none, COMM_SUCCESS, [0x78, 0x56, 0x34, 0x12], some 0⟩, ⟨none, COMM_RX_FAIL, [], none⟩]) true) 9).2.2.length = 2 ∧
    (getData extraBytesPerRecord (rxPacket (threeIds (some [⟨none, COMM_SUCCESS, [0x78, 0x56, 0x34, 0x12], some 0⟩, ⟨none, COMM_RX_FAIL, [], none⟩]) true) 9).1 1 36 4).2 = 0 :=
  have h := rxPacket_first_failure (threeIds (some [⟨none, COMM_SUCCESS, [0x78, 0x56, 0x34, 0x12], some 0⟩, ⟨none, COMM_RX_FAIL, [], none⟩]) true) queueHandler 9 1
    rfl (by decide) (by decide)
    (by intro j hj
        have hj0 : j = 0 := by omega
        subst hj0
        rfl)
    (by decide)
  ⟨h.1, by rw [h.2.2.1]; rfl, (h.2.2.2.2.2 extraBytesPerRecord 1 36 4).2⟩

end GroupSyncRead

namespace GroupSyncRead

variable {Port : Type}

/-! ## What the receive loop stores -/

theorem writeBytes_length : ∀ (bs buf : List Nat) (p : Nat),
    (writeBytes buf p bs).length = buf.length := by
  intro bs
  induction bs with
  | nil => intro buf p; rfl
  | cons b bs ih => intro buf p; simp [writeBytes, ih]

theorem writeBytes_getElem? : ∀ (bs buf : List Nat) (p x : Nat),
    (writeBytes buf p bs)[x]? =
      if p ≤ x ∧ x < p + bs.length ∧ x < buf.length then bs[x - p]? else buf[x]? := by
  intro bs
  induction bs with
  | nil =>
    intro buf p x
    have : ¬ (p ≤ x ∧ x < p + ([] : List Nat).length ∧ x < buf.length) := by
      simp only [List.length_nil]
      omega
    rw [if_neg this]
    rfl
  | cons b bs ih =>
    intro buf p x
    simp only [writeBytes, ih, List.length_set, List.length_cons]
    by_cases hxp : x = p
    · subst hxp
      have h1 : ¬ (x + 1 ≤ x ∧ x < x + 1 + bs.length ∧ x < buf.length) := by omega
      rw [if_neg h1]
      by_cases hlen : x < buf.length
      · have h2 : x ≤ x ∧ x < x + (bs.length + 1) ∧ x < buf.length := ⟨le_refl _, by omega, hlen⟩
        rw [if_pos h2]
        simp [hlen]
      · have h2 : ¬ (x ≤ x ∧ x < x + (bs.length + 1) ∧ x < buf.length) := by omega
        rw [if_neg h2, List.getElem?_set, if_pos rfl, if_neg hlen,
          List.getElem?_eq_none (by omega)]
    · by_cases hc : p + 1 ≤ x ∧ x < p + 1 + bs.length ∧ x < buf.length
      · have h2 : p ≤ x ∧ x < p + (bs.length + 1) ∧ x < buf.length := by omega
        rw [if_pos hc, if_pos h2]
        obtain ⟨d, hd⟩ : ∃ d, x - p = d + 1 := ⟨x - p - 1, by omega⟩
        have hd' : x - (p + 1) = d := by omega
        rw [hd, hd']
        simp
      · have h2 : ¬ (p ≤ x ∧ x < p + (bs.length + 1) ∧ x < buf.length) := by omega
        rw [if_neg hc, if_neg h2, List.getElem?_set_ne (by omega)]

theorem storeRx_length (buf : List Nat) (p L : Nat) (o : RxOutcome Port) :
    (storeRx buf p L o).length = buf.length := by
  unfold storeRx
  cases o.error with
  | none => simp [writeBytes_length]
  | some e => simp [writeBytes_length]

/-- A `readRx` that stores at offset `p` leaves the bytes before `p`. -/
theorem storeRx_below (buf : List Nat) (p L : Nat) (o : RxOutcome Port) (x : Nat) (hx : x < p) :
    (storeRx buf p L o)[x]? = buf[x]? := by
  have hw : (writeBytes buf p (o.data.take L))[x]? = buf[x]? := by
    rw [writeBytes_getElem?, if_neg (by omega)]
  unfold storeRx
  cases o.error with
  | none => simpa using hw
  | some e =>
    simp only
    rw [List.getElem?_set_ne (by omega), hw]

/-- A `readRx` that delivers `L` data bytes and an error byte leaves them, in
this order, in the `L + 1` bytes at offset `p`. -/
theorem storeRx_at (buf : List Nat) (p L : Nat) (o : RxOutcome Port) (e x : Nat)
    (hdata : o.data.length = L) (herr : o.error = some e)
    (hp : p ≤ x) (hx : x < p + (L + 1)) (hlen : x < buf.length) :
    (storeRx buf p L o)[x]? = (o.data ++ [e])[x - p]? := by
  unfold storeRx
  simp only [herr]
  have htake : o.data.take L = o.data := by
    rw [← hdata]
    exact List.take_length _
  rw [htake]
  by_cases hxe : x = p + L
  · subst hxe
    have hl : p + L < (writeBytes buf p o.data).length := by
      rw [writeBytes_length]; exact hlen
    rw [List.getElem?_set_self hl]
    simp [List.getElem?_append_right, hdata]
  · rw [List.getElem?_set_ne (by omega), writeBytes_getElem?,
      if_pos ⟨hp, by omega, hlen⟩, List.getElem?_append_left (by omega)]

theorem rxStore_length (ph : PacketHandler Port) (id L : Nat) :
    ∀ (n : Nat) (port : Option Port) (buf : List Nat) (p : Nat),
      (rxStore ph id L n port buf p).length = buf.length := by
  intro n
  induction n with
  | zero => intro port buf p; rfl
  | succ n ih => intro port buf p; simp [rxStore, ih, storeRx_length]

/-- The reads that store from offset `p` on leave the bytes before `p`. -/
theorem rxStore_below (ph : PacketHandler Port) (id L : Nat) :
    ∀ (n : Nat) (port : Option Port) (buf : List Nat) (p x : Nat), x < p →
      (rxStore ph id L n port buf p)[x]? = buf[x]? := by
  intro n
  induction n with
  | zero => intro port buf p x _; rfl
  | succ n ih =>
    intro port buf p x hx
    simp only [rxStore]
    rw [ih _ _ _ _ (by omega), storeRx_below _ _ _ _ _ hx]

/-- After `n` reads that each deliver `L` data bytes and an error byte, the
`L + 1` bytes of slot `i < n` hold what the read for index `i` delivered. -/
theorem rxStore_at (ph : PacketHandler Port) (id L : Nat) :
    ∀ (n : Nat) (port : Option Port) (buf : List Nat) (p i x : Nat), i < n →
      p + n * (L + 1) ≤ buf.length →
      (∀ j, j < n → (rxOutcome ph id L j port).data.length = L ∧
        (rxOutcome ph id L j port).error.isSome = true) →
      p + i * (L + 1) ≤ x → x < p + i * (L + 1) + (L + 1) →
      (rxStore ph id L n port buf p)[x]? =
        ((rxOutcome ph id L i port).data ++
          (rxOutcome ph id L i port).error.toList)[x - (p + i * (L + 1))]? := by
  intro n
  induction n with
  | zero => intro port buf p i x hi; omega
  | succ n ih =>
    intro port buf p i x hi hlen hwf hx1 hx2
    have hmul : (n + 1) * (L + 1) = n * (L + 1) + (L + 1) := Nat.succ_mul _ _
    simp only [rxStore]
    cases i with
    | zero =>
      simp only [Nat.zero_mul, Nat.add_zero] at hx1 hx2 ⊢
      rw [rxStore_below _ _ _ _ _ _ _ _ (by omega)]
      obtain ⟨hd, he⟩ := hwf 0 (by omega)
      obtain ⟨e, he'⟩ := Option.isSome_iff_exists.mp he
      have hd' : (ph.readRx port id L).data.length = L := hd
      have he'' : (ph.readRx port id L).error = some e := he'
      rw [storeRx_at buf p L _ e x hd' he'' hx1 hx2 (by omega)]
      simp [rxOutcome, rxPort, he'']
    | succ i =>
      have hmul' : (i + 1) * (L + 1) = i * (L + 1) + (L + 1) := Nat.succ_mul _ _
      have hwf' : ∀ j, j < n →
          (rxOutcome ph id L j (ph.readRx port id L).port).data.length = L ∧
          (rxOutcome ph id L j (ph.readRx port id L).port).error.isSome = true :=
        fun j hj => hwf (j + 1) (by omega)
      have h := ih (ph.readRx port id L).port (storeRx buf p L (ph.readRx port id L))
        (p + (L + 1)) i x (by omega) (by rw [storeRx_length]; omega) hwf' (by omega) (by omega)
      rw [h]
      have hoff : p + (L + 1) + i * (L + 1) = p + (i + 1) * (L + 1) := by omega
      rw [hoff]
      rfl

/-- The payload record of slot `i` after `n` well-formed reads, as a list. -/
theorem rxStore_record (ph : PacketHandler Port) (id L : Nat)
    (n : Nat) (port : Option Port) (buf : List Nat) (p i : Nat) (hi : i < n)
    (hlen : p + n * (L + 1) ≤ buf.length)
    (hwf : ∀ j, j < n → (rxOutcome ph id L j port).data.length = L ∧
      (rxOutcome ph id L j port).error.isSome = true) :
    ((rxStore ph id L n port buf p).drop (p + i * (L + 1))).take (L + 1) =
      (rxOutcome ph id L i port).data ++ (rxOutcome ph id L i port).error.toList := by
  obtain ⟨hd, he⟩ := hwf i hi
  obtain ⟨e, he'⟩ := Option.isSome_iff_exists.mp he
  apply List.ext_getElem?
  intro k
  rw [List.getElem?_take]
  by_cases hk : k < L + 1
  · rw [if_pos hk, List.getElem?_drop,
      rxStore_at ph id L n port buf p i (p + i * (L + 1) + k) hi hlen hwf (by omega) (by omega)]
    congr 1
    omega
  · rw [if_neg hk, List.getElem?_eq_none]
    simp only [List.length_append, hd, he', Option.toList_some, List.length_singleton]
    omega

end GroupSyncRead

namespace GroupSyncRead

variable {Port : Type}

/-- When every read succeeds, `rxPacket` makes `count_ids_` reads, all with
the same `id` argument, returns `COMM_SUCCESS` and sets `last_result_`; when
`count_ids_ ≤ max_ids_`, the array holds the ID zone and the registered slots
and each read delivers
`data_length_` data bytes and an error byte, the payload record of slot `i`
holds what the read for index `i` delivered. -/
theorem rxPacket_all_success (s : GroupSyncRead Port) (ph : PacketHandler Port) (id : Nat)
    (hph : s.ph_ = some ph) (hv : ph.getProtocolVersion ≠ 1) (hc : 0 < s.count_ids_)
    (hall : ∀ j, j < s.count_ids_ →
      (rxOutcome ph id s.data_length_ j s.port_).result = COMM_SUCCESS) :
    (rxPacket s id).2.1 = COMM_SUCCESS ∧
    (rxPacket s id).1.last_result_ = true ∧
    (rxPacket s id).2.2 = List.replicate s.count_ids_ id ∧
    (rxPacket s id).1.port_ = rxPort ph id s.data_length_ s.count_ids_ s.port_ ∧
    (rxPacket s id).1.count_ids_ = s.count_ids_ ∧
    (∀ buf, s.param_ = some buf → s.count_ids_ ≤ s.max_ids_ →
      s.max_ids_ + s.count_ids_ * (s.data_length_ + 1) ≤ buf.length →
      (∀ j, j < s.count_ids_ →
        (rxOutcome ph id s.data_length_ j s.port_).data.length = s.data_length_ ∧
        (rxOutcome ph id s.data_length_ j s.port_).error.isSome = true) →
      idZone (rxPacket s id).1 = idZone s ∧
      ∀ i, i < s.count_ids_ →
        record (rxPacket s id).1 i =
          (rxOutcome ph id s.data_length_ i s.port_).data ++
            (rxOutcome ph id s.data_length_ i s.port_).error.toList) := by
  have hl := rxPacket.loop_success ph id s.data_length_ s.count_ids_ s.port_
    (s.param_.getD []) s.max_ids_ COMM_RX_FAIL [] hall
  have hc' : s.count_ids_ ≠ 0 := by omega
  have hrx : rxPacket s id =
      ({ s with
          last_result_ := true
          port_ := rxPort ph id s.data_length_ s.count_ids_ s.port_
          param_ := s.param_.map (fun _ =>
            rxStore ph id s.data_length_ s.count_ids_ s.port_ (s.param_.getD []) s.max_ids_) },
        COMM_SUCCESS, List.replicate s.count_ids_ id) := by
    simp [rxPacket, hph, hv, hc', hl]
  rw [hrx]
  refine ⟨rfl, rfl, rfl, rfl, rfl, ?_⟩
  intro buf hbuf hcm hlen hwf
  constructor
  · simp only [idZone, hbuf, Option.map_some', Option.getD_some]
    apply List.ext_getElem?
    intro k
    rw [List.getElem?_take, List.getElem?_take]
    split
    · rw [rxStore_below _ _ _ _ _ _ _ _ (by omega)]
    · rfl
  · intro i hi
    simp only [record, hbuf, Option.map_some', Option.getD_some]
    exact rxStore_record ph id s.data_length_ s.count_ids_ s.port_ buf s.max_ids_ i hi hlen hwf

/-- A run of `rxPacket_all_success`: the spec's scenario with three
successful reads. -/
theorem rxPacket_all_success_witness :
    record (rxPacket (threeIds (some scenarioResponses) false) 9).1 1
      = [1, 0, 0, 0, 1] :=
  (rxPacket_all_success (threeIds (some scenarioResponses) false) queueHandler 9
    rfl (by decide) (by decide)
    (by intro j hj
        have hj' : j < 3 := hj
        interval_cases j <;> rfl)).2.2.2.2.2 _ rfl (by decide) (by decide)
    (by intro j hj
        have hj' : j < 3 := hj
        interval_cases j <;> exact ⟨rfl, rfl⟩) |>.2 1 (by decide)

/-- C2 (what the code does at the spec's scenario): with IDs 1, 2, 3
registered and three successful reads, `rxPacket` returns `COMM_SUCCESS`,
sets `last_result_`, stores the three responses in slots 0, 1, 2 and
`getData(1, 36, 4)` is `0x12345678`; but the `id` it hands to `readRx` is the
same in all three calls, whatever its value `x`, so the calls are not for IDs
1, 2, 3 in turn. -/
theorem rxPacket_scenario_same_id : ∀ x : Nat,
    (rxPacket (threeIds (some scenarioResponses) false) x).2
      = (COMM_SUCCESS, [x, x, x]) ∧
    [x, x, x] ≠ [1, 2, 3] ∧
    (rxPacket (threeIds (some scenarioResponses) false) x).1
      = afterReceive (some []) ∧
    (getData extraBytesPerRecord (afterReceive (some [])) 1 36 4).2
      = 0x12345678 := by
  intro x
  refine ⟨?_, ?_, ?_, by decide⟩
  · simp [rxPacket, threeIds, afterReceive, scenarioResponses, windowState, queueHandler, rxPacket.loop, storeRx, writeBytes, COMM_SUCCESS]
  · intro h
    simp only [List.cons.injEq] at h
    omega
  · simp [rxPacket, threeIds, afterReceive, scenarioResponses, windowState, queueHandler, rxPacket.loop, storeRx, writeBytes, COMM_SUCCESS]

end GroupSyncRead

namespace GroupSyncRead

variable {Port : Type}

/-! ## The scenario states -/

/-- The scenario states are what the member functions produce: `threeIds` by
registering IDs 1, 2, 3 after construction with window (36, 4) and capacity
3, `twoIds` by registering IDs 1, 2. -/
theorem scenario_states_reached (port : Option (List (RxOutcome Unit))) :
    (addParam extraBytesPerRecord (addParam extraBytesPerRecord (addParam extraBytesPerRecord
      (construct port (some queueHandler) 36 4 3) 1).1 2).1 3).1 = threeIds port false ∧
    (addParam extraBytesPerRecord (addParam extraBytesPerRecord
      (construct none (some queueHandler) 36 4 3) 1).1 2).1 = twoIds :=
  ⟨rfl, rfl⟩

/-! ## `removeParam` -/

/-- The `for` loop of `removeParam` does nothing when the first byte of the
array is not `id`: the test `*pb == id` reads `param_[0]` in every iteration. -/
theorem removeParam.loop_first_ne (id : Nat) (buf : List Nat) (count : Nat)
    (hne : buf.getD 0 0 ≠ id) :
    ∀ (n i : Nat), count - i = n → removeParam.loop id buf count i = (buf, count) := by
  intro n
  induction n with
  | zero =>
    intro i hn
    rw [removeParam.loop, if_neg (by omega)]
  | succ n ih =>
    intro i hn
    rw [removeParam.loop, if_pos (by omega), if_neg hne]
    exact ih (i + 1) (by omega)

/-- `removeParam(id)` leaves the state as it is when the first byte of the
array is not `id`, wherever else `id` is registered. -/
theorem removeParam_first_ne (s : GroupSyncRead Port) (id : Nat) (buf : List Nat)
    (hbuf : s.param_ = some buf) (hne : buf.getD 0 0 ≠ id) :
    removeParam s id = s := by
  unfold removeParam
  split
  · rfl
  · simp only [hbuf]
    rw [removeParam.loop_first_ne id buf s.count_ids_ hne _ 0 rfl]
    cases s
    simp_all

/-- C1 (what the code does at the spec's scenario): with IDs 1, 2, 3
registered, `removeParam(2)` changes nothing: the ID zone is still
`[1, 2, 3]`, not `[1, 3]`, and `count_ids_` is still 3, not 2; registering
ID 2 again finds it in slot 1, at offset `3 + 1 * 5`, and appends nothing. -/
theorem removeParam_scenario_unchanged :
    removeParam (threeIds none false) 2 = threeIds none false ∧
    idZone (removeParam (threeIds none false) 2) = [1, 2, 3] ∧
    (removeParam (threeIds none false) 2).count_ids_ = 3 ∧
    (findParam extraBytesPerRecord (removeParam (threeIds none false) 2) 2 true).2 = some 8 ∧
    (addParam extraBytesPerRecord (removeParam (threeIds none false) 2) 2).1.count_ids_ = 3 := by
  have h := removeParam_first_ne (threeIds none false) 2
    [1, 2, 3, 0, 0, 0, 0, 0, 0, 0, 0, 0, 0, 0, 0, 0, 0, 0] rfl (by decide)
  rw [h]
  exact ⟨rfl, by decide, rfl, by decide, by decide⟩

/-- When the first ID is removed the other IDs move down: from IDs 1, 2, 3,
`removeParam(1)` leaves `[2, 3]`. -/
theorem removeParam_scenario_first :
    idZone (removeParam
      (threeIds none false) 1)
      = [2, 3] := by
  simp [removeParam, threeIds, windowState, noHandlerOrV1, queueHandler, removeParam.loop,
    removeParam.shift, idZone]

/-! ## `setBuffer` -/

/-- When the quotient fits in 8 bits, `setBuffer` with an array sets
`count_ids_` to 0 and `max_ids_` to the quotient and returns whether it is
positive. -/
theorem setBuffer_small (E : Nat) (s : GroupSyncRead Port) (buf : List Nat) (size : Nat)
    (hq : size / (s.data_length_ + E) < 256) :
    (setBuffer E s (some buf) size).1.count_ids_ = 0 ∧
    (setBuffer E s (some buf) size).1.max_ids_ = size / (s.data_length_ + E) ∧
    ((setBuffer E s (some buf) size).2 = true ↔ 0 < size / (s.data_length_ + E)) := by
  simp [setBuffer, Nat.mod_eq_of_lt hq]

/-- The capacity `setBuffer` derives takes `data_length_ +
EXTRA_BYTES_PER_ITEM` bytes of the array per slot. -/
theorem setBuffer_capacity_le (E : Nat) (s : GroupSyncRead Port) (buf : List Nat) (size : Nat) :
    (setBuffer E s (some buf) size).1.max_ids_ * (s.data_length_ + E) ≤ size := by
  simp only [setBuffer]
  calc size / (s.data_length_ + E) % 256 * (s.data_length_ + E)
      ≤ size / (s.data_length_ + E) * (s.data_length_ + E) :=
        Nat.mul_le_mul_right _ (Nat.mod_le _ _)
    _ ≤ size := Nat.div_mul_le_self _ _

/-- If `EXTRA_BYTES_PER_ITEM` is at least 2, the ID zone and the payload
records of the capacity `setBuffer` derives fit in `buffer_size` bytes, and
in the array `findParam` allocates. -/
theorem setBuffer_layout_fits (E : Nat) (hE : 2 ≤ E) (s : GroupSyncRead Port) (buf : List Nat)
    (size : Nat) :
    (setBuffer E s (some buf) size).1.max_ids_ +
        (setBuffer E s (some buf) size).1.max_ids_ * (s.data_length_ + 1) ≤ size ∧
    (setBuffer E s (some buf) size).1.max_ids_ +
        (setBuffer E s (some buf) size).1.max_ids_ * (s.data_length_ + 1) ≤
      (setBuffer E s (some buf) size).1.max_ids_ * (E + s.data_length_ + 1) := by
  have h := setBuffer_capacity_le E s buf size
  generalize (setBuffer E s (some buf) size).1.max_ids_ = m at h ⊢
  have h1 : m + m * (s.data_length_ + 1) = m * (s.data_length_ + 2) := by ring
  have h2 : m * (s.data_length_ + 2) ≤ m * (s.data_length_ + E) :=
    Nat.mul_le_mul_left _ (by omega)
  have h3 : m * (s.data_length_ + 2) ≤ m * (E + s.data_length_ + 1) :=
    Nat.mul_le_mul_left _ (by omega)
  omega

/-- C9 (what the code does for a large array): with `data_length_ = 4` and
`buffer_size = 7680`, for `EXTRA_BYTES_PER_ITEM` 1 (`extraBytesPerRecord`)
and 2 the quotient is 1536 and 1280; `max_ids_` gets its low 8 bits, which
are 0, and `setBuffer` returns false although the quotient is positive. -/
theorem setBuffer_capacity_wraps :
    7680 / (4 + 1) = 1536 ∧
    (setBuffer extraBytesPerRecord (windowState none [] 0 false) (some (List.replicate 7680 0)) 7680).1.max_ids_
      = 0 ∧
    (setBuffer extraBytesPerRecord (windowState none [] 0 false) (some (List.replicate 7680 0)) 7680).2
      = false ∧
    7680 / (4 + 2) = 1280 ∧
    (setBuffer 2 (windowState none [] 0 false) (some (List.replicate 7680 0)) 7680).1.max_ids_
      = 0 ∧
    (setBuffer 2 (windowState none [] 0 false) (some (List.replicate 7680 0)) 7680).2
      = false := by
  exact ⟨by decide, rfl, rfl, by decide, rfl, rfl⟩

/-- The spec's scenario for `setBuffer`: an array of 12 bytes with
`data_length_ = 4` gives capacity 2; IDs 1 and 2 can be registered and ID 3
cannot. -/
theorem setBuffer_two_slots :
    (setBuffer extraBytesPerRecord (windowState none [] 0 false)
      (some (List.replicate 12 0)) 12).2 = true ∧
    (setBuffer extraBytesPerRecord (windowState none [] 0 false)
      (some (List.replicate 12 0)) 12).1.max_ids_ = 2 ∧
    (addParam extraBytesPerRecord (setBuffer extraBytesPerRecord (windowState none [] 0 false)
      (some (List.replicate 12 0)) 12).1 1).2 = true ∧
    (addParam extraBytesPerRecord (addParam extraBytesPerRecord
      (setBuffer extraBytesPerRecord (windowState none [] 0 false)
        (some (List.replicate 12 0)) 12).1 1).1 2).2 = true ∧
    (addParam extraBytesPerRecord (addParam extraBytesPerRecord (addParam extraBytesPerRecord
      (setBuffer extraBytesPerRecord (windowState none [] 0 false)
        (some (List.replicate 12 0)) 12).1 1).1 2).1 3).2 = false := by
  decide

/-- The same scenario when `EXTRA_BYTES_PER_ITEM` is 2. -/
theorem setBuffer_two_slots_extra2 :
    (setBuffer 2 (windowState none [] 0 false) (some (List.replicate 12 0)) 12).2 = true ∧
    (setBuffer 2 (windowState none [] 0 false) (some (List.replicate 12 0)) 12).1.max_ids_ = 2 ∧
    (addParam 2 (addParam 2 (addParam 2
      (setBuffer 2 (windowState none [] 0 false) (some (List.replicate 12 0)) 12).1 1).1 2).1 3).2
      = false := by
  decide

/-- C10 (what the code does when `EXTRA_BYTES_PER_ITEM` is the one ID byte
per slot, `extraBytesPerRecord`): with `data_length_ = 4` and
`buffer_size = 10`, `setBuffer` returns true with capacity 2, but the ID zone
and two payload records take `2 + 2 * (4 + 1) = 12` bytes, more than the 10
supplied. -/
theorem setBuffer_layout_overflows :
    (setBuffer extraBytesPerRecord (windowState none [] 0 false)
      (some (List.replicate 10 0)) 10).2 = true ∧
    (setBuffer extraBytesPerRecord (windowState none [] 0 false)
      (some (List.replicate 10 0)) 10).1.max_ids_ = 2 ∧
    ¬ ((setBuffer extraBytesPerRecord (windowState none [] 0 false)
          (some (List.replicate 10 0)) 10).1.max_ids_ +
        (setBuffer extraBytesPerRecord (windowState none [] 0 false)
          (some (List.replicate 10 0)) 10).1.max_ids_ *
          ((windowState none [] 0 false).data_length_ + 1) ≤ 10) := by
  decide

end GroupSyncRead

namespace GroupSyncRead

variable {Port : Type}

/-! ## `removeParam` when the first ID is removed -/

/-- The inner loop of `removeParam` ends with `i` at `count - 1`, or where it
started if that is further on; it keeps the length of the array, moves the
bytes at `i + 1 .. count - 1` one place down and leaves the others. -/
theorem removeParam.shift_spec :
    ∀ (n : Nat) (buf : List Nat) (count i : Nat), count - i = n → count ≤ buf.length →
      (removeParam.shift buf count i).2 = (if i + 1 < count then count - 1 else i) ∧
      (removeParam.shift buf count i).1.length = buf.length ∧
      ∀ x, (removeParam.shift buf count i).1[x]? =
        if i ≤ x ∧ x + 1 < count then buf[x + 1]? else buf[x]? := by
  intro n
  induction n with
  | zero =>
    intro buf count i hn _
    rw [removeParam.shift, if_neg (by omega)]
    refine ⟨by rw [if_neg (by omega)], rfl, ?_⟩
    intro x
    rw [if_neg (by omega)]
  | succ n ih =>
    intro buf count i hn hlen
    rw [removeParam.shift]
    by_cases hi : i + 1 < count
    · rw [if_pos hi]
      obtain ⟨h1, h2, h3⟩ := ih (buf.set i (buf.getD (i + 1) 0)) count (i + 1) (by omega)
        (by rw [List.length_set]; exact hlen)
      refine ⟨?_, ?_, ?_⟩
      · rw [h1, if_pos hi]
        split_ifs <;> omega
      · rw [h2, List.length_set]
      · intro x
        rw [h3 x]
        by_cases hx : i + 1 ≤ x ∧ x + 1 < count
        · rw [if_pos hx, if_pos (by omega), List.getElem?_set_ne (by omega)]
        · rw [if_neg hx]
          by_cases hxi : x = i
          · subst hxi
            rw [if_pos ⟨le_refl _, hi⟩, List.getElem?_set_self (by omega),
              List.getD_eq_getElem _ _ (by omega), List.getElem?_eq_getElem (by omega)]
          · rw [if_neg (by omega), List.getElem?_set_ne (by omega)]
    · rw [if_neg hi]
      refine ⟨by rw [if_neg hi], rfl, ?_⟩
      intro x
      rw [if_neg (by omega)]

/-- When the first byte of the array is `id`, the `for` loop of `removeParam`
shifts once and stops: `count_ids_` goes down by one, whether or not `id`
occurs again. -/
theorem removeParam.loop_first_eq (id : Nat) (buf : List Nat) (count i : Nat)
    (heq : buf.getD 0 0 = id) (hi : i < count) (hlen : count ≤ buf.length) :
    removeParam.loop id buf count i = ((removeParam.shift buf count i).1, count - 1) := by
  obtain ⟨h1, _, _⟩ := removeParam.shift_spec (count - i) buf count i rfl hlen
  rw [removeParam.loop, if_pos hi, if_pos heq]
  simp only
  rw [removeParam.loop, if_neg]
  rw [h1]
  split_ifs <;> omega

/-- `removeParam(id)` when `id` is the first registered ID: the IDs after it
move one place down and `count_ids_` goes down by one; nothing else in the
state changes, and no byte from index `count_ids_ - 1` on changes. -/
theorem removeParam_first_eq (s : GroupSyncRead Port) (id : Nat) (buf : List Nat)
    (hg : noHandlerOrV1 s = false) (hbuf : s.param_ = some buf)
    (heq : buf.getD 0 0 = id) (hpos : 0 < s.count_ids_) (hlen : s.count_ids_ ≤ buf.length) :
    removeParam s id =
      { s with
        param_ := some (removeParam.shift buf s.count_ids_ 0).1
        count_ids_ := s.count_ids_ - 1 } ∧
    (removeParam.shift buf s.count_ids_ 0).1.length = buf.length ∧
    ∀ x, (removeParam.shift buf s.count_ids_ 0).1[x]? =
      if x + 1 < s.count_ids_ then buf[x + 1]? else buf[x]? := by
  obtain ⟨_, h2, h3⟩ := removeParam.shift_spec s.count_ids_ buf s.count_ids_ 0 rfl hlen
  refine ⟨?_, h2, ?_⟩
  · simp only [removeParam, hg, hbuf]
    rw [removeParam.loop_first_eq id buf s.count_ids_ 0 heq hpos hlen]
    simp
  · intro x
    rw [h3 x]
    simp

/-- A run of `removeParam_first_eq`: from IDs 1, 2, 3, `removeParam(1)`
leaves `count_ids_ = 2`. -/
theorem removeParam_first_eq_witness :
    (removeParam (threeIds none false) 1).count_ids_ = 2 := by
  rw [(removeParam_first_eq (threeIds none false) 1
    [1, 2, 3, 0, 0, 0, 0, 0, 0, 0, 0, 0, 0, 0, 0, 0, 0, 0] (by decide) rfl (by decide)
    (by decide) (by decide)).1]
  rfl

end GroupSyncRead

namespace GroupSyncRead

variable {Port : Type}

/-! ## `txRxPacket` as a composition -/

/-- Behind the guard of `txRxPacket`, `txPacket` returns `COMM_NOT_AVAILABLE`
and leaves the state. -/
theorem txPacket_of_guard (s : GroupSyncRead Port) (hg : noHandlerOrV1 s = true) :
    txPacket s = (s, COMM_NOT_AVAILABLE) := by
  unfold noHandlerOrV1 at hg
  unfold txPacket
  cases hph : s.ph_ with
  | none => rfl
  | some ph =>
    rw [hph] at hg
    simp only at hg
    simp [hg]

/-- C11: for every state, every packet handler and every value of the `id`
handed to `readRx`, `txRxPacket` returns the same status, makes the same
`readRx` calls and leaves the same state (array, `count_ids_`,
`last_result_` and all other members) as the composition `txThenRx`: run
`txPacket`; if its status is not `COMM_SUCCESS` return it, else return
`rxPacket`. -/
theorem txRxPacket_eq_txThenRx (s : GroupSyncRead Port) (id : Nat) :
    txRxPacket s id = txThenRx s id := by
  unfold txRxPacket txThenRx
  by_cases hg : noHandlerOrV1 s = true
  · rw [if_pos hg, txPacket_of_guard s hg]
    have hne : COMM_NOT_AVAILABLE ≠ COMM_SUCCESS := by decide
    simp [hne]
  · rw [if_neg hg]

/-- C11, at the scenario: from IDs 1, 2, 3 and three pending successful
responses both give `COMM_SUCCESS` and the state after the receive. -/
theorem txRxPacket_eq_txThenRx_witness :
    txRxPacket (threeIds (some scenarioResponses) false) 9 =
      (afterReceive (some []), COMM_SUCCESS, [9, 9, 9]) ∧
    txThenRx (threeIds (some scenarioResponses) false) 9 =
      (afterReceive (some []), COMM_SUCCESS, [9, 9, 9]) := by
  have h := txRxPacket_eq_txThenRx (threeIds (some scenarioResponses) false) 9
  have h1 : txThenRx (threeIds (some scenarioResponses) false) 9 =
      (afterReceive (some []), COMM_SUCCESS, [9, 9, 9]) := by
    simp [txThenRx, txPacket, rxPacket, threeIds, afterReceive, scenarioResponses, windowState,
      queueHandler, rxPacket.loop, storeRx, writeBytes, COMM_SUCCESS]
  exact ⟨h.trans h1, h1⟩

/-! ## `getError` -/

/-- `slotIndex` of a registered ID is some index. -/
theorem slotIndex_of_mem (s : GroupSyncRead Port) (id : Nat) (h : id ∈ idZone s) :
    ∃ buf i, s.param_ = some buf ∧ findParam.loop buf id s.count_ids_ 0 = some i ∧
      slotIndex s id = some i := by
  cases hbuf : s.param_ with
  | none => simp [idZone, hbuf] at h
  | some buf =>
    obtain ⟨i, hi⟩ := findParam.loop_of_mem (show id ∈ buf.take s.count_ids_ by
      simpa [idZone, hbuf] using h)
    exact ⟨buf, i, rfl, hi, by simp [slotIndex, hbuf, hi]⟩

/-- `findParam` without adding, for an ID that is not registered, returns
`NULL`. -/
theorem findParam_not_registered (E : Nat) (s : GroupSyncRead Port) (id : Nat)
    (hfit : ∀ buf, s.param_ = some buf → s.count_ids_ ≤ buf.length)
    (h : id ∉ idZone s) : (findParam E s id false).2 = none := by
  cases hbuf : s.param_ with
  | none => simp [findParam, hbuf, findParam.loop]
  | some buf =>
    have hl : findParam.loop buf id s.count_ids_ 0 = none :=
      findParam.loop_of_not_mem (hfit buf hbuf) (by simpa [idZone, hbuf] using h)
    rw [findParam_full E s id false buf hbuf hl (Or.inr rfl)]

/-- C12: `getError(id)` returns false, and stores nothing in `error[0]`,
when there is no packet handler, the protocol version is 1.0,
`last_result_` is false or `id` is not registered; otherwise it stores the
byte at offset `data_length_` of the payload record of the slot of `id` in
`error[0]`, returns true exactly when that byte is not 0, and leaves the
state.  An array holds its registered IDs. -/
theorem getError_status_byte (E : Nat) (s : GroupSyncRead Port) (id : Nat)
    (hfit : ∀ buf, s.param_ = some buf → s.count_ids_ ≤ buf.length) :
    ((noHandlerOrV1 s = true ∨ s.last_result_ = false ∨ id ∉ idZone s) →
      (getError E s id).2 = (false, none)) ∧
    (noHandlerOrV1 s = false → s.last_result_ = true → id ∈ idZone s →
      ∃ i, slotIndex s id = some i ∧
        (getError E s id).2.2 = some ((record s i).getD s.data_length_ 0) ∧
        ((getError E s id).2.1 = true ↔ (record s i).getD s.data_length_ 0 ≠ 0) ∧
        (getError E s id).1 = s) := by
  constructor
  · intro h
    by_cases hg : noHandlerOrV1 s = true
    · simp [getError, hg]
    have hg' : noHandlerOrV1 s = false := by simpa using hg
    by_cases hl : s.last_result_ = false
    · simp [getError, hl]
    have hl' : s.last_result_ = true := by simpa using hl
    have hn : id ∉ idZone s := by
      rcases h with h | h | h
      · exact absurd h hg
      · exact absurd h hl
      · exact h
    have hf := findParam_not_registered E s id hfit hn
    unfold getError
    rw [hg', hl']
    cases hp : findParam E s id false with
    | mk s1 r =>
      rw [hp] at hf
      simp only at hf
      subst hf
      simp
  · intro hg hl hmem
    obtain ⟨buf, i, hbuf, hi, hsi⟩ := slotIndex_of_mem s id hmem
    have hf := findParam_found E s id false buf i hbuf hi
    have hrec : (record s i).getD s.data_length_ 0 =
        buf.getD (s.max_ids_ + i * (s.data_length_ + 1) + s.data_length_) 0 := by
      simp only [record, hbuf, Option.getD_some]
      rw [getD_take_drop _ _ _ _ (by omega)]
    refine ⟨i, hsi, ?_, ?_, ?_⟩
    · rw [hrec]
      simp [getError, hg, hl, hf, hbuf]
    · rw [hrec]
      simp [getError, hg, hl, hf, hbuf]
    · simp [getError, hg, hl, hf]

/-- C12, at the scenario after the receive: device 2 has status byte 1 and
`getError(2)` is `(true, 1)`; device 1 has status byte 0. -/
theorem getError_status_byte_witness :
    (getError extraBytesPerRecord (afterReceive none) 2).2 = (true, some 1) ∧
    (getError extraBytesPerRecord (afterReceive none) 1).2.1 = false := by
  have hfit : ∀ buf, (afterReceive none).param_ = some buf →
      (afterReceive none).count_ids_ ≤ buf.length := by
    intro buf hbuf
    simp only [afterReceive, windowState, Option.some.injEq] at hbuf
    subst hbuf
    decide
  obtain ⟨i, hi, h2, h3, _⟩ :=
    (getError_status_byte extraBytesPerRecord (afterReceive none) 2 hfit).2
      (by decide) rfl (by decide)
  have hi1 : i = 1 := by
    have : slotIndex (afterReceive none) 2 = some 1 := by decide
    rw [this] at hi
    exact (Option.some.inj hi).symm
  subst hi1
  refine ⟨Prod.ext (h3.mpr (by decide)) (by rw [h2]; decide), by decide⟩

end GroupSyncRead

namespace GroupSyncRead

variable {Port : Type}

/-! ## What each member function does to the state -/

/-- The search loop reads only the bytes at `i .. i + n - 1`. -/
theorem findParam.loop_congr {buf buf1 : List Nat} {id : Nat} :
    ∀ (n i : Nat), (∀ x, i ≤ x → x < i + n → buf1[x]? = buf[x]?) →
      findParam.loop buf1 id n i = findParam.loop buf id n i := by
  intro n
  induction n with
  | zero => intro i _; rfl
  | succ n ih =>
    intro i h
    have hi : buf1.getD i 0 = buf.getD i 0 := by
      simp only [List.getD_eq_getElem?_getD]
      rw [h i (le_refl _) (by omega)]
    rw [findParam.loop, findParam.loop, hi, ih (i + 1) (fun x h1 h2 => h x (by omega) (by omega))]

/-- An ID found among the first `n` bytes is found at the same index when
more bytes are searched. -/
theorem findParam.loop_mono {buf : List Nat} {id j : Nat} :
    ∀ (n m i : Nat), n ≤ m → findParam.loop buf id n i = some j →
      findParam.loop buf id m i = some j := by
  intro n
  induction n with
  | zero => intro m i _ h; simp [findParam.loop] at h
  | succ n ih =>
    intro m i hnm h
    obtain ⟨m1, rfl⟩ : ∃ m1, m = m1 + 1 := ⟨m - 1, by omega⟩
    rw [findParam.loop] at h ⊢
    by_cases hi : buf.getD i 0 = id
    · rw [if_pos hi] at h ⊢
      exact h
    · rw [if_neg hi] at h ⊢
      exact ih m1 (i + 1) (by omega) h

/-- `findParam` either leaves the state, or appends `id` to the array, or
allocates the array, or allocates it and puts `id` first. -/
theorem findParam_state (E : Nat) (s : GroupSyncRead Port) (id : Nat) (add : Bool) :
    (findParam E s id add).1 = s ∨
    (∃ buf, s.param_ = some buf ∧ findParam.loop buf id s.count_ids_ 0 = none ∧
      s.count_ids_ < s.max_ids_ ∧ add = true ∧
      (findParam E s id add).1 =
        { s with param_ := some (buf.set s.count_ids_ id), count_ids_ := s.count_ids_ + 1 }) ∨
    (s.param_ = none ∧ (findParam E s id add).1 = allocated E s) ∨
    (s.param_ = none ∧ 0 < s.max_ids_ ∧ add = true ∧
      (findParam E s id add).1 =
        { allocated E s with
          param_ := some ((List.replicate (s.max_ids_ * (E + s.data_length_ + 1)) 0).set 0 id)
          count_ids_ := 1 }) := by
  cases hbuf : s.param_ with
  | some buf =>
    cases hl : findParam.loop buf id s.count_ids_ 0 with
    | some i =>
      left
      rw [findParam_found E s id add buf i hbuf hl]
    | none =>
      by_cases hroom : s.count_ids_ < s.max_ids_ ∧ add = true
      · right; left
        obtain ⟨h1, h2⟩ := hroom
        subst h2
        refine ⟨buf, rfl, hl, h1, rfl, ?_⟩
        rw [findParam_append E s id buf hbuf hl h1]
      · left
        have : s.max_ids_ ≤ s.count_ids_ ∨ add = false := by
          by_cases h1 : s.count_ids_ < s.max_ids_
          · right
            cases add with
            | true => exact absurd ⟨h1, rfl⟩ hroom
            | false => rfl
          · left; omega
        rw [findParam_full E s id add buf hbuf hl this]
  | none =>
    right; right
    by_cases hroom : 0 < s.max_ids_ ∧ add = true
    · right
      obtain ⟨h1, h2⟩ := hroom
      subst h2
      refine ⟨rfl, h1, rfl, ?_⟩
      have : ¬ (s.max_ids_ ≤ 0) := by omega
      simp [findParam, hbuf, findParam.loop, allocated, this]
    · left
      refine ⟨rfl, ?_⟩
      have : s.max_ids_ ≤ 0 ∨ add = false := by
        by_cases h1 : 0 < s.max_ids_
        · right
          cases add with
          | true => exact absurd ⟨h1, rfl⟩ hroom
          | false => rfl
        · left; omega
      rcases this with h | h
      · simp [findParam, hbuf, findParam.loop, allocated, h]
      · simp [findParam, hbuf, findParam.loop, allocated, h]

/-- `findParam` without adding either leaves the state or, when there is no
array, allocates one. -/
theorem findParam_lookup_state (E : Nat) (s : GroupSyncRead Port) (id : Nat) :
    (findParam E s id false).1 = s ∨
    (s.param_ = none ∧ (findParam E s id false).1 = allocated E s) := by
  rcases findParam_state E s id false with h | ⟨_, _, _, _, h, _⟩ | h | ⟨_, _, h, _⟩
  · exact Or.inl h
  · simp at h
  · exact Or.inr h
  · simp at h

/-- `isAvailable` either leaves the state or, when there is no array,
allocates one. -/
theorem isAvailable_state (E : Nat) (s : GroupSyncRead Port) (id a w : Nat) :
    (isAvailable E s id a w).1 = s ∨
    (s.param_ = none ∧ (isAvailable E s id a w).1 = allocated E s) := by
  have hst : (isAvailable E s id a w).1 = s ∨
      (isAvailable E s id a w).1 = (findParam E s id false).1 := by
    unfold isAvailable
    split
    · exact Or.inl rfl
    · right
      cases findParam E s id false with
      | mk s1 r =>
        cases r with
        | none => rfl
        | some p =>
          simp only
          split <;> rfl
  rcases hst with h | h
  · exact Or.inl h
  · rw [h]
    exact findParam_lookup_state E s id

/-- `getError` either leaves the state or, when there is no array, allocates
one. -/
theorem getError_state (E : Nat) (s : GroupSyncRead Port) (id : Nat) :
    (getError E s id).1 = s ∨
    (s.param_ = none ∧ (getError E s id).1 = allocated E s) := by
  have hst : (getError E s id).1 = s ∨
      (getError E s id).1 = (findParam E s id false).1 := by
    unfold getError
    split
    · exact Or.inl rfl
    · right
      cases findParam E s id false with
      | mk s1 r =>
        cases r with
        | none => rfl
        | some p => rfl
  rcases hst with h | h
  · exact Or.inl h
  · rw [h]
    exact findParam_lookup_state E s id

/-- With an array, `findParam` without adding leaves the state. -/
theorem findParam_lookup_of_array (E : Nat) (s : GroupSyncRead Port) (id : Nat)
    (h : s.param_ ≠ none) : (findParam E s id false).1 = s := by
  rcases findParam_lookup_state E s id with h1 | ⟨h1, _⟩
  · exact h1
  · exact absurd h1 h

/-- `getData` either leaves the state or, when there is no array, allocates
one. -/
theorem getData_state (E : Nat) (s : GroupSyncRead Port) (id a w : Nat) :
    (getData E s id a w).1 = s ∨
    (s.param_ = none ∧ (getData E s id a w).1 = allocated E s) := by
  cases hav : (isAvailable E s id a w).2 with
  | false =>
    have h1 : (getData E s id a w).1 = (isAvailable E s id a w).1 := by
      unfold getData
      cases hp : isAvailable E s id a w with
      | mk s1 b =>
        rw [hp] at hav
        simp only at hav
        subst hav
        rfl
    rw [h1]
    exact isAvailable_state E s id a w
  | true =>
    left
    obtain ⟨_, _, ⟨buf, i, hbuf, hi⟩, _, _, _⟩ := isAvailable_true E s id a w hav
    rw [getData_of_available E s id a w buf i hbuf hi hav]

end GroupSyncRead

namespace GroupSyncRead

variable {Port : Type}

/-- Whatever the reads return, the loop of `rxPacket` keeps the length of the
array and the bytes before the first offset it stores at. -/
theorem rxPacket.loop_frame (ph : PacketHandler Port) (id L : Nat) :
    ∀ (n : Nat) (port : Option Port) (buf : List Nat) (p : Nat) (res : Int)
      (calls : List Nat),
      (rxPacket.loop ph id L n port buf p res calls).buf.length = buf.length ∧
      ∀ x, x < p → (rxPacket.loop ph id L n port buf p res calls).buf[x]? = buf[x]? := by
  intro n
  induction n with
  | zero => intro port buf p res calls; exact ⟨rfl, fun _ _ => rfl⟩
  | succ n ih =>
    intro port buf p res calls
    rw [rxPacket.loop]
    split
    · exact ⟨storeRx_length _ _ _ _, fun x hx => storeRx_below _ _ _ _ x hx⟩
    · obtain ⟨h1, h2⟩ := ih (ph.readRx port id L).port (storeRx buf p L (ph.readRx port id L))
        (p + (L + 1)) (ph.readRx port id L).result (calls ++ [id])
      refine ⟨by rw [h1, storeRx_length], ?_⟩
      intro x hx
      rw [h2 x (by omega), storeRx_below _ _ _ _ x hx]

/-- The loop of `rxPacket` returns `COMM_SUCCESS` only when it ran to its
end; when left by `return result`, the result is not `COMM_SUCCESS`. -/
theorem rxPacket.loop_returned (ph : PacketHandler Port) (id L : Nat) :
    ∀ (n : Nat) (port : Option Port) (buf : List Nat) (p : Nat) (res : Int)
      (calls : List Nat),
      (rxPacket.loop ph id L n port buf p res calls).returned = true →
      (rxPacket.loop ph id L n port buf p res calls).result ≠ COMM_SUCCESS := by
  intro n
  induction n with
  | zero => intro port buf p res calls h; simp [rxPacket.loop] at h
  | succ n ih =>
    intro port buf p res calls
    rw [rxPacket.loop]
    split
    · intro _
      assumption
    · exact ih _ _ _ _ _

/-- `rxPacket` changes `last_result_`, the port state and the array only;
the array keeps its length and its bytes below offset `max_ids_`, and
`last_result_` is set only when `COMM_SUCCESS` is returned. -/
theorem rxPacket_state (s : GroupSyncRead Port) (id : Nat) :
    (rxPacket s id).1.ph_ = s.ph_ ∧
    (rxPacket s id).1.is_user_buffer_ = s.is_user_buffer_ ∧
    (rxPacket s id).1.max_ids_ = s.max_ids_ ∧
    (rxPacket s id).1.count_ids_ = s.count_ids_ ∧
    (rxPacket s id).1.start_address_ = s.start_address_ ∧
    (rxPacket s id).1.data_length_ = s.data_length_ ∧
    (∃ buf1 : List Nat, (rxPacket s id).1.param_ = s.param_.map (fun _ => buf1) ∧
      buf1.length = (s.param_.getD []).length ∧
      ∀ x, x < s.max_ids_ → buf1[x]? = (s.param_.getD [])[x]?) ∧
    ((rxPacket s id).1.last_result_ = true → (rxPacket s id).2.1 = COMM_SUCCESS) := by
  have hsame : s.param_ = s.param_.map (fun _ => s.param_.getD []) := by
    cases s.param_ <;> rfl
  unfold rxPacket
  simp only
  split
  · exact ⟨rfl, rfl, rfl, rfl, rfl, rfl, ⟨s.param_.getD [], hsame, rfl, fun _ _ => rfl⟩,
      fun h => by simp at h⟩
  · rename_i ph hph
    split
    · exact ⟨rfl, rfl, rfl, rfl, rfl, rfl, ⟨s.param_.getD [], hsame, rfl, fun _ _ => rfl⟩,
        fun h => by simp at h⟩
    split
    · exact ⟨rfl, rfl, rfl, rfl, rfl, rfl, ⟨s.param_.getD [], hsame, rfl, fun _ _ => rfl⟩,
        fun h => by simp at h⟩
    obtain ⟨h1, h2⟩ := rxPacket.loop_frame ph id s.data_length_ s.count_ids_ s.port_
      (s.param_.getD []) s.max_ids_ COMM_RX_FAIL []
    split
    · exact ⟨rfl, rfl, rfl, rfl, rfl, rfl, ⟨_, rfl, h1, h2⟩, fun h => by simp at h⟩
    split
    · rename_i hres
      exact ⟨rfl, rfl, rfl, rfl, rfl, rfl, ⟨_, rfl, h1, h2⟩, fun _ => by simpa using hres⟩
    · exact ⟨rfl, rfl, rfl, rfl, rfl, rfl, ⟨_, rfl, h1, h2⟩, fun h => by simp at h⟩

/-- `txPacket` changes the port state only. -/
theorem txPacket_state (s : GroupSyncRead Port) :
    (txPacket s).1.ph_ = s.ph_ ∧
    (txPacket s).1.last_result_ = s.last_result_ ∧
    (txPacket s).1.is_user_buffer_ = s.is_user_buffer_ ∧
    (txPacket s).1.max_ids_ = s.max_ids_ ∧
    (txPacket s).1.count_ids_ = s.count_ids_ ∧
    (txPacket s).1.param_ = s.param_ ∧
    (txPacket s).1.start_address_ = s.start_address_ ∧
    (txPacket s).1.data_length_ = s.data_length_ := by
  unfold txPacket
  split
  · exact ⟨rfl, rfl, rfl, rfl, rfl, rfl, rfl, rfl⟩
  · split
    · exact ⟨rfl, rfl, rfl, rfl, rfl, rfl, rfl, rfl⟩
    · exact ⟨rfl, rfl, rfl, rfl, rfl, rfl, rfl, rfl⟩

/-- `txRxPacket` is `rxPacket` on the state `txPacket` leaves when `txPacket`
returns `COMM_SUCCESS` past the guard, and leaves the state `txPacket`
leaves otherwise. -/
theorem txRxPacket_cases (s : GroupSyncRead Port) (id : Nat) :
    (txRxPacket s id).1 = s ∨
    ((txPacket s).2 ≠ COMM_SUCCESS ∧ (txRxPacket s id).1 = (txPacket s).1) ∨
    ((txPacket s).2 = COMM_SUCCESS ∧ txRxPacket s id = rxPacket (txPacket s).1 id) := by
  unfold txRxPacket
  split
  · exact Or.inl rfl
  · right
    cases hp : txPacket s with
    | mk s1 r =>
      simp only
      by_cases hr : r = COMM_SUCCESS
      · right
        simp [hr]
      · left
        simp [hr]

end GroupSyncRead

namespace GroupSyncRead

variable {Port : Type}

/-! ## States with the same table -/

theorem SameIds.refl (s : GroupSyncRead Port) : SameIds s s :=
  ⟨rfl, rfl, rfl, rfl, rfl, fun h => h, fun buf h => ⟨buf, h, rfl, fun _ _ => rfl⟩⟩

theorem SameIds.trans {s t u : GroupSyncRead Port} (h1 : SameIds s t) (h2 : SameIds t u) :
    SameIds s u := by
  obtain ⟨a1, a2, a3, a4, a5, a6, a7⟩ := h1
  obtain ⟨b1, b2, b3, b4, b5, b6, b7⟩ := h2
  refine ⟨b1.trans a1, b2.trans a2, b3.trans a3, b4.trans a4, b5.trans a5,
    fun h => b6 (a6 h), ?_⟩
  intro buf hbuf
  obtain ⟨buf1, hb1, hl1, hf1⟩ := a7 buf hbuf
  obtain ⟨buf2, hb2, hl2, hf2⟩ := b7 buf1 hb1
  refine ⟨buf2, hb2, hl2.trans hl1, ?_⟩
  intro x hx
  rw [hf2 x (by rw [a1]; exact hx), hf1 x hx]

/-- The guard depends on the packet handler only. -/
theorem noHandlerOrV1_congr {s t : GroupSyncRead Port} (h : t.ph_ = s.ph_) :
    noHandlerOrV1 t = noHandlerOrV1 s := by
  unfold noHandlerOrV1
  rw [h]

theorem txPacket_sameIds (s : GroupSyncRead Port) : SameIds s (txPacket s).1 := by
  obtain ⟨h1, _, _, h4, h5, h6, h7, h8⟩ := txPacket_state s
  refine ⟨h4, h5, h8, h7, noHandlerOrV1_congr h1, fun h => by rw [h6, h], ?_⟩
  intro buf hbuf
  exact ⟨buf, by rw [h6, hbuf], rfl, fun _ _ => rfl⟩

theorem rxPacket_sameIds (s : GroupSyncRead Port) (id : Nat) : SameIds s (rxPacket s id).1 := by
  obtain ⟨h1, _, h3, h4, h5, h6, ⟨buf1, hp, hl, hf⟩, _⟩ := rxPacket_state s id
  refine ⟨h3, h4, h6, h5, noHandlerOrV1_congr h1, fun h => by rw [hp, h]; rfl, ?_⟩
  intro buf hbuf
  rw [hbuf] at hp hl hf
  exact ⟨buf1, hp, hl, hf⟩

theorem txRxPacket_sameIds (s : GroupSyncRead Port) (id : Nat) :
    SameIds s (txRxPacket s id).1 := by
  rcases txRxPacket_cases s id with h | ⟨_, h⟩ | ⟨_, h⟩
  · rw [h]; exact SameIds.refl s
  · rw [h]; exact txPacket_sameIds s
  · rw [h]; exact (txPacket_sameIds s).trans (rxPacket_sameIds _ id)

/-- States with the same table resolve every ID to the same slot. -/
theorem SameIds.slotIndex_eq {s t : GroupSyncRead Port} (h : SameIds s t)
    (hcm : s.count_ids_ ≤ s.max_ids_) (id : Nat) : slotIndex t id = slotIndex s id := by
  obtain ⟨_, a2, _, _, _, a6, a7⟩ := h
  cases hbuf : s.param_ with
  | none => simp [slotIndex, hbuf, a6 hbuf]
  | some buf =>
    obtain ⟨buf1, hb1, _, hf⟩ := a7 buf hbuf
    simp only [slotIndex, hbuf, hb1, a2]
    exact findParam.loop_congr _ _ (fun x _ hx => hf x (by omega))

/-- States with the same table have the same ID zone. -/
theorem SameIds.idZone_eq {s t : GroupSyncRead Port} (h : SameIds s t)
    (hcm : s.count_ids_ ≤ s.max_ids_) : idZone t = idZone s := by
  obtain ⟨_, a2, _, _, _, a6, a7⟩ := h
  cases hbuf : s.param_ with
  | none => simp [idZone, hbuf, a6 hbuf]
  | some buf =>
    obtain ⟨buf1, hb1, _, hf⟩ := a7 buf hbuf
    simp only [idZone, hbuf, hb1, a2]
    apply List.ext_getElem?
    intro k
    rw [List.getElem?_take, List.getElem?_take]
    split
    · exact hf k (by omega)
    · rfl

/-- Distinct registered IDs stay distinct in a state with the same table. -/
theorem SameIds.distinct {s t : GroupSyncRead Port} (h : SameIds s t) (hd : DistinctIds s) :
    DistinctIds t := by
  have hz := h.idZone_eq hd.1
  obtain ⟨a1, a2, _, _, _, a6, a7⟩ := h
  refine ⟨by rw [a1, a2]; exact hd.1, ?_⟩
  intro buf1 hb1
  cases hbuf : s.param_ with
  | none => rw [a6 hbuf] at hb1; simp at hb1
  | some buf =>
    obtain ⟨buf2, hb2, hl, _⟩ := a7 buf hbuf
    rw [hb1] at hb2
    have hb : buf1 = buf2 := Option.some.inj hb2
    subst hb
    obtain ⟨d1, d2⟩ := hd.2 buf hbuf
    refine ⟨by rw [a1, hl]; exact d1, ?_⟩
    simp only [idZone, hbuf, hb1] at hz
    rw [hz]
    exact d2

end GroupSyncRead

namespace GroupSyncRead

variable {Port : Type}

/-! ## What `removeParam` leaves alone -/

/-- The inner loop of `removeParam` ends with `i` at `count - 1` or where it
started, keeps the length of the array and every byte from index
`count - 1` on. -/
theorem removeParam.shift_frame :
    ∀ (n : Nat) (buf : List Nat) (count i : Nat), count - i = n →
      (removeParam.shift buf count i).2 = (if i + 1 < count then count - 1 else i) ∧
      (removeParam.shift buf count i).1.length = buf.length ∧
      ∀ x, count ≤ x + 1 → (removeParam.shift buf count i).1[x]? = buf[x]? := by
  intro n
  induction n with
  | zero =>
    intro buf count i hn
    rw [removeParam.shift, if_neg (by omega)]
    exact ⟨by rw [if_neg (by omega)], rfl, fun _ _ => rfl⟩
  | succ n ih =>
    intro buf count i hn
    rw [removeParam.shift]
    by_cases hi : i + 1 < count
    · rw [if_pos hi]
      obtain ⟨h1, h2, h3⟩ := ih (buf.set i (buf.getD (i + 1) 0)) count (i + 1) (by omega)
      refine ⟨?_, ?_, ?_⟩
      · rw [h1, if_pos hi]
        split_ifs <;> omega
      · rw [h2, List.length_set]
      · intro x hx
        rw [h3 x hx, List.getElem?_set_ne (by omega)]
    · rw [if_neg hi]
      exact ⟨by rw [if_neg hi], rfl, fun _ _ => rfl⟩

/-- The `for` loop of `removeParam`: one shift and one decrement when the
first byte of the array is `id`, nothing otherwise. -/
theorem removeParam.loop_result (id : Nat) (buf : List Nat) (count i : Nat) :
    removeParam.loop id buf count i =
      if i < count ∧ buf.getD 0 0 = id then ((removeParam.shift buf count i).1, count - 1)
      else (buf, count) := by
  by_cases heq : buf.getD 0 0 = id
  · by_cases hi : i < count
    · rw [if_pos ⟨hi, heq⟩]
      obtain ⟨h1, _, _⟩ := removeParam.shift_frame (count - i) buf count i rfl
      rw [removeParam.loop, if_pos hi, if_pos heq]
      simp only
      rw [removeParam.loop, if_neg]
      rw [h1]
      split_ifs <;> omega
    · rw [if_neg (fun h => hi h.1), removeParam.loop, if_neg hi]
  · rw [if_neg (fun h => heq h.2)]
    exact removeParam.loop_first_ne id buf count heq _ i rfl

/-- `removeParam` changes the array and `count_ids_` only. -/
theorem removeParam_fields (s : GroupSyncRead Port) (id : Nat) :
    (removeParam s id).port_ = s.port_ ∧
    (removeParam s id).ph_ = s.ph_ ∧
    (removeParam s id).last_result_ = s.last_result_ ∧
    (removeParam s id).is_user_buffer_ = s.is_user_buffer_ ∧
    (removeParam s id).max_ids_ = s.max_ids_ ∧
    (removeParam s id).start_address_ = s.start_address_ ∧
    (removeParam s id).data_length_ = s.data_length_ := by
  unfold removeParam
  split
  · exact ⟨rfl, rfl, rfl, rfl, rfl, rfl, rfl⟩
  · split
    · exact ⟨rfl, rfl, rfl, rfl, rfl, rfl, rfl⟩
    · exact ⟨rfl, rfl, rfl, rfl, rfl, rfl, rfl⟩

/-- `removeParam` leaves `count_ids_` or takes one from a positive
`count_ids_`; it keeps the array where there is one, with its length and
every byte from index `count_ids_ - 1` on. -/
theorem removeParam_table (s : GroupSyncRead Port) (id : Nat) :
    ((removeParam s id).count_ids_ = s.count_ids_ ∨
      (0 < s.count_ids_ ∧ (removeParam s id).count_ids_ + 1 = s.count_ids_)) ∧
    (s.param_ = none → (removeParam s id).param_ = none) ∧
    ∀ buf, s.param_ = some buf →
      ∃ buf1, (removeParam s id).param_ = some buf1 ∧ buf1.length = buf.length ∧
        ∀ x, s.count_ids_ ≤ x + 1 → buf1[x]? = buf[x]? := by
  unfold removeParam
  split
  · exact ⟨Or.inl rfl, fun h => h, fun buf h => ⟨buf, h, rfl, fun _ _ => rfl⟩⟩
  · split
    · rename_i hnone
      exact ⟨Or.inl rfl, fun h => h, fun buf h => by rw [hnone] at h; simp at h⟩
    · rename_i buf hbuf
      simp only
      rw [removeParam.loop_result]
      obtain ⟨_, h2, h3⟩ := removeParam.shift_frame s.count_ids_ buf s.count_ids_ 0 rfl
      by_cases hc : 0 < s.count_ids_ ∧ buf.getD 0 0 = id
      · rw [if_pos hc]
        refine ⟨Or.inr ⟨hc.1, by simp only; omega⟩, fun h => by rw [hbuf] at h; simp at h, ?_⟩
        intro buf' hb'
        rw [hbuf] at hb'
        have hb : buf = buf' := Option.some.inj hb'
        subst hb
        exact ⟨_, rfl, h2, h3⟩
      · rw [if_neg hc]
        refine ⟨Or.inl rfl, fun h => by rw [hbuf] at h; simp at h, ?_⟩
        intro buf' hb'
        rw [hbuf] at hb'
        have hb : buf = buf' := Option.some.inj hb'
        subst hb
        exact ⟨_, rfl, rfl, fun _ _ => rfl⟩

end GroupSyncRead

namespace GroupSyncRead

variable {Port : Type}

/-! ## `count_ids_` stays within `max_ids_` -/

/-- `addParam` leaves the state or the state `findParam` with adding leaves. -/
theorem addParam_state (E : Nat) (s : GroupSyncRead Port) (id : Nat) :
    (addParam E s id).1 = s ∨ (addParam E s id).1 = (findParam E s id true).1 := by
  unfold addParam
  split
  · exact Or.inl rfl
  · right
    cases findParam E s id true with
    | mk s1 r =>
      cases r with
      | none => rfl
      | some p => rfl

/-- `setBuffer` leaves no registered IDs. -/
theorem setBuffer_count (E : Nat) (s : GroupSyncRead Port) (bp : Option (List Nat)) (size : Nat) :
    (setBuffer E s bp size).1.count_ids_ = 0 := by
  cases bp <;> rfl

/-- Every member function keeps `count_ids_ ≤ max_ids_`. -/
theorem step_count_le (E : Nat) (s : GroupSyncRead Port) (op : Op Port)
    (h : s.count_ids_ ≤ s.max_ids_) :
    (step E s op).count_ids_ ≤ (step E s op).max_ids_ := by
  cases op with
  | init port ph => simp [step, init, clearParam]
  | setBuffer bp size =>
    simp only [step]
    rw [setBuffer_count]
    exact Nat.zero_le _
  | addParam id =>
    simp only [step]
    rcases addParam_state E s id with h1 | h1
    · rw [h1]; exact h
    · rw [h1]
      rcases findParam_state E s id true with h2 | ⟨buf, _, _, hroom, _, h2⟩ | ⟨_, h2⟩ |
          ⟨_, hpos, _, h2⟩
      · rw [h2]; exact h
      · rw [h2]; simp only; omega
      · rw [h2]; simp [allocated]
      · rw [h2]; simp only [allocated]; omega
  | removeParam id =>
    simp only [step]
    obtain ⟨hc, _, _⟩ := removeParam_table s id
    obtain ⟨_, _, _, _, hm, _, _⟩ := removeParam_fields s id
    rw [hm]
    rcases hc with hc | ⟨_, hc⟩ <;> omega
  | clearParam => simp [step, clearParam]
  | txPacket =>
    obtain ⟨h1, h2, _⟩ := txPacket_sameIds s
    simp only [step]
    rw [h1, h2]; exact h
  | rxPacket id =>
    obtain ⟨h1, h2, _⟩ := rxPacket_sameIds s id
    simp only [step]
    rw [h1, h2]; exact h
  | txRxPacket id =>
    obtain ⟨h1, h2, _⟩ := txRxPacket_sameIds s id
    simp only [step]
    rw [h1, h2]; exact h
  | isAvailable id a w =>
    simp only [step]
    rcases isAvailable_state E s id a w with h1 | ⟨_, h1⟩
    · rw [h1]; exact h
    · rw [h1]; simp [allocated]
  | getData id a w =>
    simp only [step]
    rcases getData_state E s id a w with h1 | ⟨_, h1⟩
    · rw [h1]; exact h
    · rw [h1]; simp [allocated]
  | getError id =>
    simp only [step]
    rcases getError_state E s id with h1 | ⟨_, h1⟩
    · rw [h1]; exact h
    · rw [h1]; simp [allocated]

/-- A sequence of calls keeps `count_ids_ ≤ max_ids_`. -/
theorem runOps_count_le (E : Nat) : ∀ (ops : List (Op Port)) (s : GroupSyncRead Port),
    s.count_ids_ ≤ s.max_ids_ →
    (runOps E s ops).count_ids_ ≤ (runOps E s ops).max_ids_ := by
  intro ops
  induction ops with
  | nil => intro s h; exact h
  | cons op ops ih =>
    intro s h
    exact ih (step E s op) (step_count_le E s op h)

/-- C13: `count_ids_ ≤ max_ids_` holds after either constructor, every
member function (`init`, `setBuffer`, `addParam`, `removeParam`,
`clearParam`, `txPacket`, `rxPacket`, `txRxPacket`, `isAvailable`, `getData`,
`getError`) keeps it, so it holds after every sequence of calls from either
constructor; and `removeParam` either leaves `count_ids_` or takes one from
a positive `count_ids_`, so it never goes below 0. -/
theorem count_le_max_ids (E : Nat) :
    (∀ (port : Option Port) (ph : Option (PacketHandler Port)) (a l m : Nat),
      (construct port ph a l m).count_ids_ ≤ (construct port ph a l m).max_ids_) ∧
    (∀ (a l m : Nat),
      (constructDeferred a l m : GroupSyncRead Port).count_ids_ ≤
        (constructDeferred a l m : GroupSyncRead Port).max_ids_) ∧
    (∀ (s : GroupSyncRead Port) (op : Op Port), s.count_ids_ ≤ s.max_ids_ →
      (step E s op).count_ids_ ≤ (step E s op).max_ids_) ∧
    (∀ (s : GroupSyncRead Port) (id : Nat),
      (removeParam s id).count_ids_ = s.count_ids_ ∨
        (0 < s.count_ids_ ∧ (removeParam s id).count_ids_ + 1 = s.count_ids_)) ∧
    (∀ (ops : List (Op Port)) (port : Option Port) (ph : Option (PacketHandler Port))
        (a l m : Nat),
      (runOps E (construct port ph a l m) ops).count_ids_ ≤
        (runOps E (construct port ph a l m) ops).max_ids_) ∧
    (∀ (ops : List (Op Port)) (a l m : Nat),
      (runOps E (constructDeferred a l m) ops).count_ids_ ≤
        (runOps E (constructDeferred a l m) ops).max_ids_) := by
  refine ⟨?_, ?_, step_count_le E, fun s id => (removeParam_table s id).1, ?_, ?_⟩
  · intro port ph a l m
    exact Nat.zero_le _
  · intro a l m
    exact Nat.zero_le _
  · intro ops port ph a l m
    exact runOps_count_le E ops _ (Nat.zero_le _)
  · intro ops a l m
    exact runOps_count_le E ops _ (Nat.zero_le _)

/-- C13, at a run: construct with window (36, 4) and capacity 3, register
IDs 1, 2, 3 and a fourth, receive, remove ID 1. -/
theorem count_le_max_ids_witness :
    (runOps extraBytesPerRecord
      (construct (some scenarioResponses) (some queueHandler) 36 4 3)
      [.addParam 1, .addParam 2, .addParam 3, .addParam 4, .txRxPacket 9,
        .removeParam 1]).count_ids_ ≤ 3 :=
  (count_le_max_ids extraBytesPerRecord).2.2.2.2.1
    [.addParam 1, .addParam 2, .addParam 3, .addParam 4, .txRxPacket 9, .removeParam 1]
    (some scenarioResponses) (some queueHandler) 36 4 3

end GroupSyncRead

namespace GroupSyncRead

variable {Port : Type}

/-! ## Who writes `last_result_` -/

/-- `findParam` does not write `last_result_`. -/
theorem findParam_last_result (E : Nat) (s : GroupSyncRead Port) (id : Nat) (add : Bool) :
    (findParam E s id add).1.last_result_ = s.last_result_ := by
  rcases findParam_state E s id add with h | ⟨_, _, _, _, _, h⟩ | ⟨_, h⟩ | ⟨_, _, _, h⟩ <;>
    rw [h] <;> rfl

/-- Every member function but `rxPacket` and `txRxPacket` leaves
`last_result_`. -/
theorem step_last_result_frame (E : Nat) (s : GroupSyncRead Port) (op : Op Port)
    (hop : rxStatus s op = none) : (step E s op).last_result_ = s.last_result_ := by
  cases op with
  | init port ph => rfl
  | setBuffer bp size => cases bp <;> rfl
  | addParam id =>
    simp only [step]
    rcases addParam_state E s id with h1 | h1
    · rw [h1]
    · rw [h1, findParam_last_result]
  | removeParam id => exact (removeParam_fields s id).2.2.1
  | clearParam => rfl
  | txPacket => exact (txPacket_state s).2.1
  | rxPacket id => simp [rxStatus] at hop
  | txRxPacket id => simp [rxStatus] at hop
  | isAvailable id a w =>
    simp only [step]
    rcases isAvailable_state E s id a w with h1 | ⟨_, h1⟩ <;> simp only [h1, allocated]
  | getData id a w =>
    simp only [step]
    rcases getData_state E s id a w with h1 | ⟨_, h1⟩ <;> simp only [h1, allocated]
  | getError id =>
    simp only [step]
    rcases getError_state E s id with h1 | ⟨_, h1⟩ <;> simp only [h1, allocated]

/-- `txRxPacket` leaves `last_result_` when `txPacket` does not return
`COMM_SUCCESS`. -/
theorem txRxPacket_last_result_frame (s : GroupSyncRead Port) (id : Nat)
    (h : (txPacket s).2 ≠ COMM_SUCCESS) :
    (txRxPacket s id).1.last_result_ = s.last_result_ := by
  rcases txRxPacket_cases s id with h1 | ⟨_, h1⟩ | ⟨h1, _⟩
  · rw [h1]
  · rw [h1]; exact (txPacket_state s).2.1
  · exact absurd h1 h

/-- `txRxPacket` sets `last_result_` only when it returns `COMM_SUCCESS`. -/
theorem txRxPacket_last_result (s : GroupSyncRead Port) (id : Nat)
    (h0 : s.last_result_ = false) (h : (txRxPacket s id).1.last_result_ = true) :
    (txRxPacket s id).2.1 = COMM_SUCCESS := by
  rcases txRxPacket_cases s id with h1 | ⟨_, h1⟩ | ⟨_, h1⟩
  · rw [h1, h0] at h; simp at h
  · rw [h1, (txPacket_state s).2.1, h0] at h; simp at h
  · rw [h1] at h ⊢
    exact (rxPacket_state _ id).2.2.2.2.2.2.2 h

/-- A call that does not return `COMM_SUCCESS` from `rxPacket` or
`txRxPacket` leaves `last_result_` false. -/
theorem step_last_result_false (E : Nat) (s : GroupSyncRead Port) (op : Op Port)
    (h0 : s.last_result_ = false) (hop : (rxStatus s op != some COMM_SUCCESS) = true) :
    (step E s op).last_result_ = false := by
  cases hst : rxStatus s op with
  | none => rw [step_last_result_frame E s op hst, h0]
  | some r =>
    rw [hst] at hop
    have hr : r ≠ COMM_SUCCESS := by
      intro hr
      rw [hr] at hop
      simp at hop
    cases op with
    | rxPacket id =>
      simp only [rxStatus, Option.some.injEq] at hst
      cases hl : (step E s (.rxPacket id)).last_result_ with
      | false => rfl
      | true =>
        exfalso
        apply hr
        rw [← hst]
        exact (rxPacket_state s id).2.2.2.2.2.2.2 hl
    | txRxPacket id =>
      simp only [rxStatus, Option.some.injEq] at hst
      cases hl : (step E s (.txRxPacket id)).last_result_ with
      | false => rfl
      | true =>
        exfalso
        apply hr
        rw [← hst]
        exact txRxPacket_last_result s id h0 hl
    | _ => simp [rxStatus] at hst

/-- After a sequence of calls in which no `rxPacket` or `txRxPacket` returns
`COMM_SUCCESS`, started with `last_result_` false, `last_result_` is false. -/
theorem runOps_last_result_false (E : Nat) :
    ∀ (ops : List (Op Port)) (s : GroupSyncRead Port), s.last_result_ = false →
      noRxSuccess E s ops = true → (runOps E s ops).last_result_ = false := by
  intro ops
  induction ops with
  | nil => intro s h _; exact h
  | cons op ops ih =>
    intro s h hno
    simp only [noRxSuccess, Bool.and_eq_true] at hno
    exact ih (step E s op) (step_last_result_false E s op h hno.1) hno.2

/-- C16: after either constructor and any sequence of calls (`init`,
`setBuffer`, `addParam`, `removeParam`, `clearParam`, `txPacket`,
`rxPacket`, `txRxPacket`, accessors) in which no `rxPacket` or `txRxPacket`
call has returned `COMM_SUCCESS`, `last_result_` is false, `isAvailable` is
false and `getData` is 0 for every id, address and width. -/
theorem no_data_before_success (E : Nat) (ops : List (Op Port)) :
    (∀ (port : Option Port) (ph : Option (PacketHandler Port)) (a l m : Nat),
      noRxSuccess E (construct port ph a l m) ops = true →
      (runOps E (construct port ph a l m) ops).last_result_ = false ∧
      ∀ (id a1 w : Nat),
        (isAvailable E (runOps E (construct port ph a l m) ops) id a1 w).2 = false ∧
        (getData E (runOps E (construct port ph a l m) ops) id a1 w).2 = 0) ∧
    (∀ (a l m : Nat),
      noRxSuccess E (constructDeferred a l m : GroupSyncRead Port) ops = true →
      (runOps E (constructDeferred a l m : GroupSyncRead Port) ops).last_result_ = false ∧
      ∀ (id a1 w : Nat),
        (isAvailable E (runOps E (constructDeferred a l m : GroupSyncRead Port) ops)
          id a1 w).2 = false ∧
        (getData E (runOps E (constructDeferred a l m : GroupSyncRead Port) ops)
          id a1 w).2 = 0) := by
  have key : ∀ s : GroupSyncRead Port, s.last_result_ = false → noRxSuccess E s ops = true →
      (runOps E s ops).last_result_ = false ∧
      ∀ (id a1 w : Nat),
        (isAvailable E (runOps E s ops) id a1 w).2 = false ∧
        (getData E (runOps E s ops) id a1 w).2 = 0 := by
    intro s h0 hno
    have hl := runOps_last_result_false E ops s h0 hno
    refine ⟨hl, fun id a1 w => ?_⟩
    obtain ⟨h1, h2⟩ := accessors_of_last_result_false E (runOps E s ops) id a1 w hl
    rw [h1, h2]
    exact ⟨rfl, rfl⟩
  exact ⟨fun port ph a l m hno => key _ rfl hno, fun a l m hno => key _ rfl hno⟩

/-- C16, at a run: ID 1 is registered and the receive fails at the first
response; `isAvailable(1, 36, 4)` is false and `getData(1, 36, 4)` is 0. -/
theorem no_data_before_success_witness :
    (isAvailable extraBytesPerRecord
      (runOps extraBytesPerRecord
        (construct (some [⟨none, COMM_RX_FAIL, [], none⟩]) (some queueHandler) 36 4 3)
        [.addParam 1, .rxPacket 9]) 1 36 4).2 = false ∧
    (getData extraBytesPerRecord
      (runOps extraBytesPerRecord
        (construct (some [⟨none, COMM_RX_FAIL, [], none⟩]) (some queueHandler) 36 4 3)
        [.addParam 1, .rxPacket 9]) 1 36 4).2 = 0 :=
  ((no_data_before_success extraBytesPerRecord [.addParam 1, .rxPacket 9]).1
    (some [⟨none, COMM_RX_FAIL, [], none⟩]) (some queueHandler) 36 4 3 (by decide)).2 1 36 4

end GroupSyncRead

namespace GroupSyncRead

variable {Port : Type}

/-! ## Slot indices -/

/-- The search finds `id` at `j` exactly when `j` is the first index below
`n` that holds `id`. -/
theorem findParam.loop_eq_some_iff {buf : List Nat} {id n j : Nat} :
    findParam.loop buf id n 0 = some j ↔
      j < n ∧ buf.getD j 0 = id ∧ ∀ k, k < j → buf.getD k 0 ≠ id := by
  constructor
  · intro h
    obtain ⟨_, h2, h3, h4⟩ := findParam.loop_some _ _ _ h
    exact ⟨by omega, h3, fun k hk => h4 k (Nat.zero_le _) hk⟩
  · rintro ⟨h1, h2, h3⟩
    cases h : findParam.loop buf id n 0 with
    | none =>
      rw [findParam.loop_none] at h
      exact absurd h2 (h j (Nat.zero_le _) (by omega))
    | some j1 =>
      obtain ⟨_, _, g3, g4⟩ := findParam.loop_some _ _ _ h
      have : j1 = j := by
        by_contra hne
        rcases Nat.lt_or_gt_of_ne hne with hlt | hgt
        · exact h3 j1 hlt g3
        · exact g4 j (Nat.zero_le _) hgt h2
      rw [this]

/-- `findParam` leaves the packet handler, the window, the capacity and
`last_result_`. -/
theorem findParam_fields (E : Nat) (s : GroupSyncRead Port) (id : Nat) (add : Bool) :
    (findParam E s id add).1.ph_ = s.ph_ ∧
    (findParam E s id add).1.max_ids_ = s.max_ids_ ∧
    (findParam E s id add).1.start_address_ = s.start_address_ ∧
    (findParam E s id add).1.data_length_ = s.data_length_ ∧
    (findParam E s id add).1.last_result_ = s.last_result_ := by
  rcases findParam_state E s id add with h | ⟨_, _, _, _, _, h⟩ | ⟨_, h⟩ | ⟨_, _, _, h⟩ <;>
    rw [h] <;> exact ⟨rfl, rfl, rfl, rfl, rfl⟩

/-- `addParam` leaves the packet handler, the window, the capacity and
`last_result_`. -/
theorem addParam_fields (E : Nat) (s : GroupSyncRead Port) (id : Nat) :
    (addParam E s id).1.ph_ = s.ph_ ∧
    (addParam E s id).1.max_ids_ = s.max_ids_ ∧
    (addParam E s id).1.start_address_ = s.start_address_ ∧
    (addParam E s id).1.data_length_ = s.data_length_ ∧
    (addParam E s id).1.last_result_ = s.last_result_ := by
  rcases addParam_state E s id with h | h
  · rw [h]; exact ⟨rfl, rfl, rfl, rfl, rfl⟩
  · rw [h]; exact findParam_fields E s id true

/-- Registering any ID leaves every registered ID in its slot. -/
theorem slotIndex_addParam (E : Nat) (s : GroupSyncRead Port) (id id2 i : Nat)
    (h : slotIndex s id = some i) : slotIndex (addParam E s id2).1 id = some i := by
  cases hbuf : s.param_ with
  | none => simp [slotIndex, hbuf] at h
  | some buf =>
    have hl : findParam.loop buf id s.count_ids_ 0 = some i := by
      simpa [slotIndex, hbuf] using h
    rcases addParam_state E s id2 with h1 | h1
    · rw [h1]; exact h
    · rw [h1]
      rcases findParam_state E s id2 true with h2 | ⟨buf', hb', _, _, _, h2⟩ | ⟨hn, _⟩ |
          ⟨hn, _⟩
      · rw [h2]; exact h
      · rw [hbuf] at hb'
        have hb : buf = buf' := Option.some.inj hb'
        subst hb
        rw [h2]
        simp only [slotIndex]
        apply findParam.loop_mono s.count_ids_ (s.count_ids_ + 1) 0 (by omega)
        rw [findParam.loop_congr s.count_ids_ 0
          (fun x _ hx => List.getElem?_set_ne (by omega))]
        exact hl
      · rw [hbuf] at hn; simp at hn
      · rw [hbuf] at hn; simp at hn

/-- `isAvailable` is true for an in-window field of an ID with a slot, after
a successful receive, and leaves the state. -/
theorem isAvailable_of_slotIndex (E : Nat) (t : GroupSyncRead Port) (id a w i : Nat)
    (hg : noHandlerOrV1 t = false) (hl : t.last_result_ = true)
    (hi : slotIndex t id = some i)
    (h1 : t.start_address_ ≤ a) (h2 : a + w ≤ t.start_address_ + t.data_length_) :
    isAvailable E t id a w = (t, true) := by
  cases hbuf : t.param_ with
  | none => simp [slotIndex, hbuf] at hi
  | some buf =>
    exact isAvailable_of E t id a w buf i hg hl hbuf (by simpa [slotIndex, hbuf] using hi) h1 h2

/-- The accessors leave a state that has an array. -/
theorem accessors_state_of_array (E : Nat) (s : GroupSyncRead Port) (h : s.param_ ≠ none)
    (id a w : Nat) :
    (isAvailable E s id a w).1 = s ∧ (getData E s id a w).1 = s ∧ (getError E s id).1 = s := by
  refine ⟨?_, ?_, ?_⟩
  · rcases isAvailable_state E s id a w with h1 | ⟨h1, _⟩
    · exact h1
    · exact absurd h1 h
  · rcases getData_state E s id a w with h1 | ⟨h1, _⟩
    · exact h1
    · exact absurd h1 h
  · rcases getError_state E s id with h1 | ⟨h1, _⟩
    · exact h1
    · exact absurd h1 h

/-- A registered ID keeps its slot index through `addParam`, `txPacket`,
`rxPacket`, `txRxPacket` and the accessors, and the capacity and the record
length stay, so the offset of its payload record stays. -/
theorem step_keeps_slot (E : Nat) (s : GroupSyncRead Port) (id i : Nat)
    (h : slotIndex s id = some i) (hcm : s.count_ids_ ≤ s.max_ids_)
    (op : Op Port) (hop : op.keepsSlots = true) :
    slotIndex (step E s op) id = some i ∧
    (step E s op).max_ids_ = s.max_ids_ ∧
    (step E s op).data_length_ = s.data_length_ := by
  have harr : s.param_ ≠ none := by
    intro hn
    simp [slotIndex, hn] at h
  cases op with
  | init port ph => simp [Op.keepsSlots] at hop
  | setBuffer bp size => simp [Op.keepsSlots] at hop
  | removeParam id2 => simp [Op.keepsSlots] at hop
  | clearParam => simp [Op.keepsSlots] at hop
  | addParam id2 =>
    obtain ⟨_, h2, _, h4, _⟩ := addParam_fields E s id2
    exact ⟨slotIndex_addParam E s id id2 i h, h2, h4⟩
  | txPacket =>
    have hs := txPacket_sameIds s
    exact ⟨(hs.slotIndex_eq hcm id).trans h, hs.1, hs.2.2.1⟩
  | rxPacket x =>
    have hs := rxPacket_sameIds s x
    exact ⟨(hs.slotIndex_eq hcm id).trans h, hs.1, hs.2.2.1⟩
  | txRxPacket x =>
    have hs := txRxPacket_sameIds s x
    exact ⟨(hs.slotIndex_eq hcm id).trans h, hs.1, hs.2.2.1⟩
  | isAvailable id2 a w =>
    simp only [step]
    rw [(accessors_state_of_array E s harr id2 a w).1]
    exact ⟨h, rfl, rfl⟩
  | getData id2 a w =>
    simp only [step]
    rw [(accessors_state_of_array E s harr id2 a w).2.1]
    exact ⟨h, rfl, rfl⟩
  | getError id2 =>
    simp only [step]
    rw [(accessors_state_of_array E s harr id2 0 0).2.2]
    exact ⟨h, rfl, rfl⟩

end GroupSyncRead

namespace GroupSyncRead

variable {Port : Type}

/-- `findParam` of an ID with slot index `i` leaves the state and returns
the offset `max_ids_ + i * (data_length_ + 1)`. -/
theorem findParam_of_slotIndex (E : Nat) (t : GroupSyncRead Port) (id i : Nat) (add : Bool)
    (h : slotIndex t id = some i) :
    findParam E t id add = (t, some (t.max_ids_ + i * (t.data_length_ + 1))) := by
  cases hbuf : t.param_ with
  | none => simp [slotIndex, hbuf] at h
  | some buf =>
    exact findParam_found E t id add buf i hbuf (by simpa [slotIndex, hbuf] using h)

/-- C14 (as amended): for every registered `id` with slot index `i`, in a
state with `count_ids_ ≤ max_ids_`, each of `addParam` (of any ID),
`removeParam` of an ID that is stored after `id` or is not registered,
`txPacket`, `rxPacket`, `txRxPacket`, `isAvailable`, `getData` and `getError`
leaves `id` registered at the same index `i` and `findParam` resolving it to
the same payload record offset `max_ids_ + i * (data_length_ + 1)`. -/
theorem slot_index_stable (E : Nat) (s : GroupSyncRead Port) (id i : Nat)
    (h : slotIndex s id = some i) (hcm : s.count_ids_ ≤ s.max_ids_)
    (op : Op Port)
    (hop : op.keepsSlots = true ∨
      ∃ id2, op = Op.removeParam id2 ∧
        (slotIndex s id2 = none ∨ ∃ j, slotIndex s id2 = some j ∧ i < j)) :
    slotIndex (step E s op) id = some i ∧
    (findParam E s id false).2 = some (s.max_ids_ + i * (s.data_length_ + 1)) ∧
    (findParam E (step E s op) id false).2 = some (s.max_ids_ + i * (s.data_length_ + 1)) := by
  have hstep : slotIndex (step E s op) id = some i ∧
      (step E s op).max_ids_ = s.max_ids_ ∧
      (step E s op).data_length_ = s.data_length_ := by
    rcases hop with hop | ⟨id2, rfl, hid2⟩
    · exact step_keeps_slot E s id i h hcm op hop
    · have hs : removeParam s id2 = s := by
        cases hbuf : s.param_ with
        | none => simp [slotIndex, hbuf] at h
        | some buf =>
          have hi := findParam.loop_some s.count_ids_ 0 i (by simpa [slotIndex, hbuf] using h)
          apply removeParam_first_ne s id2 buf hbuf
          rcases hid2 with hn | ⟨j, hj, hij⟩
          · have hall := (findParam.loop_none s.count_ids_ 0).1
              (by simpa [slotIndex, hbuf] using hn)
            exact hall 0 (le_refl _) (by omega)
          · have hj2 := findParam.loop_some s.count_ids_ 0 j
              (by simpa [slotIndex, hbuf] using hj)
            exact hj2.2.2.2 0 (le_refl _) (by omega)
      show slotIndex (removeParam s id2) id = some i ∧
        (removeParam s id2).max_ids_ = s.max_ids_ ∧
        (removeParam s id2).data_length_ = s.data_length_
      rw [hs]
      exact ⟨h, rfl, rfl⟩
  obtain ⟨h1, h2, h3⟩ := hstep
  refine ⟨h1, ?_, ?_⟩
  · rw [findParam_of_slotIndex E s id i false h]
  · rw [findParam_of_slotIndex E (step E s op) id i false h1, h2, h3]

/-- C14 (as amended), at two states: with IDs 1 and 2 registered, registering
ID 7 leaves ID 2 in slot 1; with IDs 1, 2, 3 registered, `removeParam(3)`,
of the ID stored after ID 2, leaves ID 2 in slot 1. -/
theorem slot_index_stable_witness :
    slotIndex (step extraBytesPerRecord twoIds (.addParam 7)) 2 = some 1 ∧
    slotIndex (step extraBytesPerRecord (threeIds none false) (.removeParam 3)) 2 = some 1 :=
  ⟨(slot_index_stable extraBytesPerRecord twoIds 2 1 (by decide) (by decide) (.addParam 7)
      (Or.inl rfl)).1,
   (slot_index_stable extraBytesPerRecord (threeIds none false) 2 1 (by decide) (by decide)
      (.removeParam 3) (Or.inr ⟨3, rfl, Or.inr ⟨2, by decide, by decide⟩⟩)).1⟩

/-- C14 (as stated) fails: with IDs 1, 2, 3 registered, ID 2 has slot index
1; after `removeParam(1)`, which is not `removeParam(2)`, `clearParam` or
`setBuffer`, ID 2 has slot index 0; and after `init` ID 2 is no longer
registered. -/
theorem slot_index_moves :
    slotIndex (threeIds none false) 2 = some 1 ∧
    slotIndex (removeParam (threeIds none false) 1) 2 = some 0 ∧
    slotIndex (init (threeIds none false) none (some queueHandler)) 2 = none := by
  refine ⟨by decide, ?_, by decide⟩
  simp [slotIndex, removeParam, threeIds, windowState, noHandlerOrV1, queueHandler,
    removeParam.loop, removeParam.shift, findParam.loop]

/-! ## `last_result_` is written by `rxPacket` only -/

/-- C20: `init`, `setBuffer`, `addParam`, `removeParam`, `clearParam`,
`txPacket`, `isAvailable`, `getData` and `getError` leave `last_result_`
unchanged, and `txRxPacket` leaves it unchanged whenever `txPacket` does not
return `COMM_SUCCESS`.  So when `last_result_` is true, a `txRxPacket` that
fails at `txPacket`, or an `addParam` of any ID, leaves `isAvailable` true
for every in-window field of every registered ID. -/
theorem last_result_frame (E : Nat) (s : GroupSyncRead Port) :
    (∀ port ph, (init s port ph).last_result_ = s.last_result_) ∧
    (∀ bp size, (setBuffer E s bp size).1.last_result_ = s.last_result_) ∧
    (∀ id, (addParam E s id).1.last_result_ = s.last_result_) ∧
    (∀ id, (removeParam s id).last_result_ = s.last_result_) ∧
    (clearParam s).last_result_ = s.last_result_ ∧
    (txPacket s).1.last_result_ = s.last_result_ ∧
    (∀ id a w, (isAvailable E s id a w).1.last_result_ = s.last_result_) ∧
    (∀ id a w, (getData E s id a w).1.last_result_ = s.last_result_) ∧
    (∀ id, (getError E s id).1.last_result_ = s.last_result_) ∧
    (∀ x, (txPacket s).2 ≠ COMM_SUCCESS →
      (txRxPacket s x).1.last_result_ = s.last_result_) ∧
    (∀ id a w, noHandlerOrV1 s = false → s.last_result_ = true →
      s.count_ids_ ≤ s.max_ids_ → id ∈ idZone s →
      s.start_address_ ≤ a → a + w ≤ s.start_address_ + s.data_length_ →
      (∀ x, (txPacket s).2 ≠ COMM_SUCCESS →
        (isAvailable E (txRxPacket s x).1 id a w).2 = true) ∧
      (∀ id2, (isAvailable E (addParam E s id2).1 id a w).2 = true)) := by
  refine ⟨fun port ph => step_last_result_frame E s (.init port ph) rfl,
    fun bp size => step_last_result_frame E s (.setBuffer bp size) rfl,
    fun id => step_last_result_frame E s (.addParam id) rfl,
    fun id => step_last_result_frame E s (.removeParam id) rfl,
    step_last_result_frame E s .clearParam rfl,
    step_last_result_frame E s .txPacket rfl,
    fun id a w => step_last_result_frame E s (.isAvailable id a w) rfl,
    fun id a w => step_last_result_frame E s (.getData id a w) rfl,
    fun id => step_last_result_frame E s (.getError id) rfl,
    fun x h => txRxPacket_last_result_frame s x h, ?_⟩
  intro id a w hg hl hcm hmem h1 h2
  obtain ⟨buf, i, _, _, hsi⟩ := slotIndex_of_mem s id hmem
  constructor
  · intro x hx
    have hs := txRxPacket_sameIds s x
    have hlast := txRxPacket_last_result_frame s x hx
    rw [isAvailable_of_slotIndex E (txRxPacket s x).1 id a w i
      (by rw [hs.2.2.2.2.1, hg]) (by rw [hlast, hl])
      ((hs.slotIndex_eq hcm id).trans hsi)
      (by rw [hs.2.2.2.1]; exact h1) (by rw [hs.2.2.2.1, hs.2.2.1]; exact h2)]
  · intro id2
    obtain ⟨f1, _, f3, f4, f5⟩ := addParam_fields E s id2
    rw [isAvailable_of_slotIndex E (addParam E s id2).1 id a w i
      (by rw [noHandlerOrV1_congr f1, hg]) (by rw [f5, hl])
      (slotIndex_addParam E s id id2 i hsi)
      (by rw [f3]; exact h1) (by rw [f3, f4]; exact h2)]

/-- C20, at the scenario after the receive: registering ID 7 leaves
`last_result_` true and `isAvailable(1, 36, 4)` true. -/
theorem last_result_frame_witness :
    (isAvailable extraBytesPerRecord
      (addParam extraBytesPerRecord (afterReceive none) 7).1 1 36 4).2 = true ∧
    (addParam extraBytesPerRecord (afterReceive none) 7).1.last_result_ = true :=
  ⟨((last_result_frame extraBytesPerRecord (afterReceive none)).2.2.2.2.2.2.2.2.2.2
      1 36 4 (by decide) rfl (by decide) (by decide) (by decide) (by decide)).2 7,
    by rw [(last_result_frame extraBytesPerRecord (afterReceive none)).2.2.1 7]; rfl⟩

end GroupSyncRead

namespace GroupSyncRead

variable {Port : Type}

/-! ## `removeParam` and the payload zone -/

/-- The payload record of slot `i` is cut from the payload zone. -/
theorem record_eq_payload (s : GroupSyncRead Port) (i : Nat) :
    record s i = ((payloadZone s).drop (i * (s.data_length_ + 1))).take (s.data_length_ + 1) := by
  unfold record payloadZone
  cases s.param_ with
  | none => simp
  | some buf => simp [List.drop_drop]

/-- C17: in a state with `count_ids_ ≤ max_ids_`, `removeParam(id)` changes
only the ID zone and `count_ids_`: the capacity, the ownership flag,
`last_result_`, the handlers and the window stay, and so does every byte of
the payload zone, hence every payload record.  So when the first ID is
removed, an ID that had slot index `j + 1` has slot index `j` afterwards and
resolves to the payload record that belonged to index `j`, with the bytes it
had. -/
theorem removeParam_payload_frame (s : GroupSyncRead Port) (id : Nat)
    (hcm : s.count_ids_ ≤ s.max_ids_) :
    (removeParam s id).max_ids_ = s.max_ids_ ∧
    (removeParam s id).is_user_buffer_ = s.is_user_buffer_ ∧
    (removeParam s id).last_result_ = s.last_result_ ∧
    (removeParam s id).port_ = s.port_ ∧
    (removeParam s id).ph_ = s.ph_ ∧
    (removeParam s id).start_address_ = s.start_address_ ∧
    (removeParam s id).data_length_ = s.data_length_ ∧
    payloadZone (removeParam s id) = payloadZone s ∧
    (∀ i, record (removeParam s id) i = record s i) ∧
    (∀ (E : Nat) (buf : List Nat) (v j : Nat), s.param_ = some buf →
      s.count_ids_ ≤ buf.length → noHandlerOrV1 s = false → buf.getD 0 0 = id →
      slotIndex s v = some (j + 1) →
      slotIndex (removeParam s id) v = some j ∧
      (findParam E (removeParam s id) v false).2 =
        some (s.max_ids_ + j * (s.data_length_ + 1)) ∧
      record (removeParam s id) j = record s j) := by
  obtain ⟨f1, f2, f3, f4, f5, f6, f7⟩ := removeParam_fields s id
  obtain ⟨_, t2, t3⟩ := removeParam_table s id
  have hpay : payloadZone (removeParam s id) = payloadZone s := by
    cases hbuf : s.param_ with
    | none => simp [payloadZone, hbuf, t2 hbuf]
    | some buf =>
      obtain ⟨buf1, hb1, _, hf⟩ := t3 buf hbuf
      simp only [payloadZone, hbuf, hb1, f5]
      apply List.ext_getElem?
      intro k
      rw [List.getElem?_drop, List.getElem?_drop]
      exact hf _ (by omega)
  have hrec : ∀ i, record (removeParam s id) i = record s i := by
    intro i
    rw [record_eq_payload, record_eq_payload, hpay, f7]
  refine ⟨f5, f4, f3, f1, f2, f6, f7, hpay, hrec, ?_⟩
  intro E buf v j hbuf hlen hg heq hv
  have hl : findParam.loop buf v s.count_ids_ 0 = some (j + 1) := by
    simpa [slotIndex, hbuf] using hv
  obtain ⟨g1, g2, g3⟩ := findParam.loop_eq_some_iff.mp hl
  obtain ⟨hst, _, hsh⟩ := removeParam_first_eq s id buf hg hbuf heq (by omega) hlen
  have hget : ∀ x, x + 1 < s.count_ids_ →
      (removeParam.shift buf s.count_ids_ 0).1.getD x 0 = buf.getD (x + 1) 0 := by
    intro x hx
    simp only [List.getD_eq_getElem?_getD]
    rw [hsh x, if_pos hx]
  have hslot : slotIndex (removeParam s id) v = some j := by
    rw [hst]
    simp only [slotIndex]
    apply findParam.loop_eq_some_iff.mpr
    refine ⟨by omega, ?_, ?_⟩
    · rw [hget j (by omega)]; exact g2
    · intro k hk
      rw [hget k (by omega)]
      exact g3 (k + 1) (by omega)
  refine ⟨hslot, ?_, hrec j⟩
  rw [findParam_of_slotIndex E (removeParam s id) v j false hslot, f5, f7]

/-- C17, at the scenario after the receive: `removeParam(1)` leaves the
payload zone; ID 2 moves from slot 1 to slot 0, whose record still holds the
bytes received for ID 1. -/
theorem removeParam_payload_frame_witness :
    payloadZone (removeParam (afterReceive none) 1) = payloadZone (afterReceive none) ∧
    slotIndex (removeParam (afterReceive none) 1) 2 = some 0 ∧
    record (removeParam (afterReceive none) 1) 0 = [0x78, 0x56, 0x34, 0x12, 0] := by
  have h := removeParam_payload_frame (afterReceive none) 1 (by decide)
  have h2 := h.2.2.2.2.2.2.2.2.2 extraBytesPerRecord
    [1, 2, 3, 0x78, 0x56, 0x34, 0x12, 0, 1, 0, 0, 0, 1, 0, 0, 0, 0, 0] 2 0 rfl (by decide)
    (by decide) (by decide) (by decide)
  refine ⟨h.2.2.2.2.2.2.2.1, h2.1, ?_⟩
  rw [h2.2.2]
  decide

end GroupSyncRead

namespace GroupSyncRead

variable {Port : Type}

/-! ## The registered IDs are distinct -/

/-- An ID the search does not find is not among the first `n` bytes. -/
theorem findParam.not_mem_of_loop_none {buf : List Nat} {id n : Nat}
    (h : findParam.loop buf id n 0 = none) : id ∉ buf.take n := by
  intro hmem
  obtain ⟨j, hj⟩ := findParam.loop_of_mem hmem
  rw [h] at hj
  simp at hj

/-- Storing at index `c` and taking `c + 1` bytes appends to the first `c`
bytes. -/
theorem take_succ_set (buf : List Nat) (c v : Nat) (hc : c < buf.length) :
    (buf.set c v).take (c + 1) = buf.take c ++ [v] := by
  have htake : (buf.set c v).take c = buf.take c := by
    apply List.ext_getElem?
    intro k
    rw [List.getElem?_take, List.getElem?_take]
    split
    · rw [List.getElem?_set_ne (by omega)]
    · rfl
  rw [List.take_succ, htake]
  simp [hc]

/-- The first byte of a list, taken alone, has no duplicate. -/
theorem nodup_take_one (l : List Nat) : (l.take 1).Nodup := by
  cases l with
  | nil => simp
  | cons a l => simp

/-- The state after the allocation has distinct registered IDs: none. -/
theorem distinctIds_allocated (E : Nat) (s : GroupSyncRead Port) : DistinctIds (allocated E s) := by
  refine ⟨Nat.zero_le _, ?_⟩
  intro buf hbuf
  simp only [allocated, Option.some.injEq] at hbuf
  subst hbuf
  refine ⟨?_, by simp [allocated]⟩
  simp only [allocated, List.length_replicate]
  exact Nat.le_mul_of_pos_right _ (by omega)

/-- `findParam` keeps the registered IDs distinct. -/
theorem findParam_distinct (E : Nat) (s : GroupSyncRead Port) (id : Nat) (add : Bool)
    (hd : DistinctIds s) : DistinctIds (findParam E s id add).1 := by
  rcases findParam_state E s id add with h | ⟨buf, hbuf, hl, hroom, _, h⟩ | ⟨_, h⟩ |
      ⟨_, hpos, _, h⟩
  · rw [h]; exact hd
  · rw [h]
    obtain ⟨d1, d2⟩ := hd.2 buf hbuf
    refine ⟨by simp only; omega, ?_⟩
    intro b hb
    simp only [Option.some.injEq] at hb
    subst hb
    refine ⟨by simp only [List.length_set]; exact d1, ?_⟩
    simp only
    rw [take_succ_set buf s.count_ids_ id (by omega), List.nodup_append]
    refine ⟨d2, List.nodup_singleton id, ?_⟩
    intro x hx hx2
    have : x = id := by simpa using hx2
    subst this
    exact findParam.not_mem_of_loop_none hl hx
  · rw [h]; exact distinctIds_allocated E s
  · rw [h]
    refine ⟨by simp only [allocated]; omega, ?_⟩
    intro b hb
    simp only [Option.some.injEq] at hb
    subst hb
    refine ⟨?_, nodup_take_one _⟩
    simp only [allocated, List.length_set, List.length_replicate]
    exact Nat.le_mul_of_pos_right _ (by omega)

/-- `removeParam` keeps the registered IDs distinct. -/
theorem removeParam_distinct (s : GroupSyncRead Port) (id : Nat)
    (hd : DistinctIds s) : DistinctIds (removeParam s id) := by
  unfold removeParam
  split
  · exact hd
  · split
    · exact hd
    · rename_i buf hbuf
      obtain ⟨d1, d2⟩ := hd.2 buf hbuf
      have hlen : s.count_ids_ ≤ buf.length := by have := hd.1; omega
      simp only
      rw [removeParam.loop_result]
      by_cases hc : 0 < s.count_ids_ ∧ buf.getD 0 0 = id
      · rw [if_pos hc]
        obtain ⟨_, h2, h3⟩ := removeParam.shift_spec s.count_ids_ buf s.count_ids_ 0 rfl hlen
        refine ⟨by have := hd.1; simp only; omega, ?_⟩
        intro b hb
        simp only [Option.some.injEq] at hb
        subst hb
        refine ⟨by simp only; rw [h2]; exact d1, ?_⟩
        have htail : (removeParam.shift buf s.count_ids_ 0).1.take (s.count_ids_ - 1) =
            (buf.take s.count_ids_).drop 1 := by
          apply List.ext_getElem?
          intro k
          rw [List.getElem?_take, List.getElem?_drop, List.getElem?_take, h3 k]
          by_cases hk : k < s.count_ids_ - 1
          · rw [if_pos hk, if_pos ⟨Nat.zero_le _, by omega⟩, if_pos (by omega), Nat.add_comm]
          · rw [if_neg hk, if_neg (by omega)]
        simp only
        rw [htail]
        exact List.Nodup.sublist (List.drop_sublist 1 _) d2
      · rw [if_neg hc]
        refine ⟨hd.1, ?_⟩
        intro b hb
        simp only [Option.some.injEq] at hb
        subst hb
        exact ⟨d1, d2⟩

/-- Every member function, called with an array as large as the caller
says, keeps the registered IDs distinct. -/
theorem step_distinct (E : Nat) (s : GroupSyncRead Port) (op : Op Port)
    (hd : DistinctIds s) (hh : op.honest = true) : DistinctIds (step E s op) := by
  have hclear : ∀ (port : Option Port) (ph : Option (PacketHandler Port)),
      DistinctIds ({ s with port_ := port, ph_ := ph, count_ids_ := 0 } : GroupSyncRead Port) := by
    intro port ph
    refine ⟨Nat.zero_le _, ?_⟩
    intro buf hbuf
    exact ⟨(hd.2 buf hbuf).1, by simp⟩
  cases op with
  | init port ph => exact hclear port ph
  | setBuffer bp size =>
    cases bp with
    | none =>
      refine ⟨Nat.zero_le _, ?_⟩
      intro buf hbuf
      simp [step, setBuffer] at hbuf
    | some buf =>
      simp only [Op.honest, decide_eq_true_eq] at hh
      refine ⟨Nat.zero_le _, ?_⟩
      intro b hb
      simp only [step, setBuffer, Option.some.injEq] at hb
      subst hb
      refine ⟨?_, by simp [step, setBuffer]⟩
      simp only [step, setBuffer]
      calc size / (s.data_length_ + E) % 256 ≤ size / (s.data_length_ + E) := Nat.mod_le _ _
        _ ≤ size := Nat.div_le_self _ _
        _ ≤ buf.length := hh
  | addParam id =>
    simp only [step]
    rcases addParam_state E s id with h1 | h1
    · rw [h1]; exact hd
    · rw [h1]; exact findParam_distinct E s id true hd
  | removeParam id => exact removeParam_distinct s id hd
  | clearParam => exact hclear s.port_ s.ph_
  | txPacket => exact (txPacket_sameIds s).distinct hd
  | rxPacket x => exact (rxPacket_sameIds s x).distinct hd
  | txRxPacket x => exact (txRxPacket_sameIds s x).distinct hd
  | isAvailable id a w =>
    simp only [step]
    rcases isAvailable_state E s id a w with h1 | ⟨_, h1⟩
    · rw [h1]; exact hd
    · rw [h1]; exact distinctIds_allocated E s
  | getData id a w =>
    simp only [step]
    rcases getData_state E s id a w with h1 | ⟨_, h1⟩
    · rw [h1]; exact hd
    · rw [h1]; exact distinctIds_allocated E s
  | getError id =>
    simp only [step]
    rcases getError_state E s id with h1 | ⟨_, h1⟩
    · rw [h1]; exact hd
    · rw [h1]; exact distinctIds_allocated E s

/-- A sequence of such calls keeps the registered IDs distinct. -/
theorem runOps_distinct (E : Nat) : ∀ (ops : List (Op Port)) (s : GroupSyncRead Port),
    DistinctIds s → (∀ op ∈ ops, Op.honest op = true) → DistinctIds (runOps E s ops) := by
  intro ops
  induction ops with
  | nil => intro s h _; exact h
  | cons op ops ih =>
    intro s h hh
    exact ih (step E s op) (step_distinct E s op h (hh op (List.mem_cons_self _ _)))
      (fun o ho => hh o (List.mem_cons_of_mem _ ho))

/-- With distinct registered IDs, the bytes at two different indices below
`count_ids_` differ, and the search resolves the ID at index `i` to slot `i`. -/
theorem DistinctIds.unique_slot {s : GroupSyncRead Port} (hd : DistinctIds s)
    (buf : List Nat) (hbuf : s.param_ = some buf) :
    (∀ i j, i < s.count_ids_ → j < s.count_ids_ → buf.getD i 0 = buf.getD j 0 → i = j) ∧
    (∀ i, i < s.count_ids_ → slotIndex s (buf.getD i 0) = some i) := by
  obtain ⟨d1, d2⟩ := hd.2 buf hbuf
  have hlen : s.count_ids_ ≤ buf.length := by have := hd.1; omega
  have hinj : ∀ i j, i < s.count_ids_ → j < s.count_ids_ →
      buf.getD i 0 = buf.getD j 0 → i = j := by
    intro i j hi hj hij
    have hi' : i < (buf.take s.count_ids_).length := by
      rw [List.length_take]; omega
    have hj' : j < (buf.take s.count_ids_).length := by
      rw [List.length_take]; omega
    apply (@List.Nodup.getElem_inj_iff Nat (buf.take s.count_ids_) d2 i hi' j hj').mp
    rw [List.getElem_take, List.getElem_take]
    rw [List.getD_eq_getElem buf 0 (show i < buf.length by omega),
      List.getD_eq_getElem buf 0 (show j < buf.length by omega)] at hij
    exact hij
  refine ⟨hinj, ?_⟩
  intro i hi
  simp only [slotIndex, hbuf]
  apply findParam.loop_eq_some_iff.mpr
  refine ⟨hi, rfl, ?_⟩
  intro k hk heq
  have := hinj k i (by omega) hi heq
  omega

/-- C18: after either constructor and any sequence of calls of `init`,
`setBuffer` (with an array of at least `buffer_size` bytes), `addParam`,
`removeParam`, `clearParam`, `txPacket`, `rxPacket`, `txRxPacket` and the
accessors, the registered IDs `param_[0 .. count_ids_)` are pairwise
distinct, and the search of `findParam` resolves the ID at index `i` to slot
`i`. -/
theorem registered_ids_distinct (E : Nat) (ops : List (Op Port))
    (hh : ∀ op ∈ ops, Op.honest op = true) :
    (∀ (port : Option Port) (ph : Option (PacketHandler Port)) (a l m : Nat),
      DistinctIds (runOps E (construct port ph a l m) ops) ∧
      ∀ buf, (runOps E (construct port ph a l m) ops).param_ = some buf →
        (∀ i j, i < (runOps E (construct port ph a l m) ops).count_ids_ →
          j < (runOps E (construct port ph a l m) ops).count_ids_ →
          buf.getD i 0 = buf.getD j 0 → i = j) ∧
        (∀ i, i < (runOps E (construct port ph a l m) ops).count_ids_ →
          slotIndex (runOps E (construct port ph a l m) ops) (buf.getD i 0) = some i)) ∧
    (∀ (a l m : Nat),
      DistinctIds (runOps E (constructDeferred a l m : GroupSyncRead Port) ops) ∧
      ∀ buf, (runOps E (constructDeferred a l m : GroupSyncRead Port) ops).param_ = some buf →
        (∀ i j, i < (runOps E (constructDeferred a l m : GroupSyncRead Port) ops).count_ids_ →
          j < (runOps E (constructDeferred a l m : GroupSyncRead Port) ops).count_ids_ →
          buf.getD i 0 = buf.getD j 0 → i = j) ∧
        (∀ i, i < (runOps E (constructDeferred a l m : GroupSyncRead Port) ops).count_ids_ →
          slotIndex (runOps E (constructDeferred a l m : GroupSyncRead Port) ops)
            (buf.getD i 0) = some i)) := by
  have hstart : ∀ s : GroupSyncRead Port, s.param_ = none → s.count_ids_ = 0 →
      DistinctIds s := by
    intro s hp hc
    refine ⟨by omega, ?_⟩
    intro buf hbuf
    rw [hp] at hbuf
    simp at hbuf
  have key : ∀ s : GroupSyncRead Port, DistinctIds s →
      DistinctIds (runOps E s ops) ∧
      ∀ buf, (runOps E s ops).param_ = some buf →
        (∀ i j, i < (runOps E s ops).count_ids_ → j < (runOps E s ops).count_ids_ →
          buf.getD i 0 = buf.getD j 0 → i = j) ∧
        (∀ i, i < (runOps E s ops).count_ids_ →
          slotIndex (runOps E s ops) (buf.getD i 0) = some i) := by
    intro s hs
    have hd := runOps_distinct E ops s hs hh
    exact ⟨hd, fun buf hbuf => hd.unique_slot buf hbuf⟩
  exact ⟨fun port ph a l m => key _ (hstart _ rfl rfl),
    fun a l m => key _ (hstart _ rfl rfl)⟩

/-- C18, at a run: after registering 1, 2, 3, 2 and 1 again, three IDs are
registered and ID 3 resolves to slot 2. -/
theorem registered_ids_distinct_witness :
    slotIndex (runOps extraBytesPerRecord
      (construct none (some queueHandler) 36 4 3)
      [.addParam 1, .addParam 2, .addParam 3, .addParam 2, .addParam 1]) 3 = some 2 := by
  have h := ((registered_ids_distinct extraBytesPerRecord
    [.addParam 1, .addParam 2, .addParam 3, .addParam 2, .addParam 1]
    (by intro op hop; simp only [List.mem_cons, List.mem_singleton, List.not_mem_nil,
          or_false] at hop
        rcases hop with h | h | h | h | h <;> rw [h] <;> rfl)).1
    none (some queueHandler) 36 4 3).2
      [1, 2, 3, 0, 0, 0, 0, 0, 0, 0, 0, 0, 0, 0, 0, 0, 0, 0] (by decide)
  exact h.2 2 (by decide)

end GroupSyncRead

namespace GroupSyncRead

variable {Port : Type}

/-! ## `getData` and the state -/

/-- Without an array, past the guard and with `last_result_` true,
`getData` allocates the array and returns 0. -/
theorem getData_allocates (E : Nat) (s : GroupSyncRead Port) (id a w : Nat)
    (hbuf : s.param_ = none) (hg : noHandlerOrV1 s = false) (hl : s.last_result_ = true) :
    getData E s id a w = (allocated E s, 0) := by
  have hav : isAvailable E s id a w = (allocated E s, false) := by
    simp [isAvailable, hg, hl, findParam, hbuf, findParam.loop, allocated]
  simp [getData, hav]

/-- In the state after the allocation, `getData` returns 0 and leaves the
state. -/
theorem getData_allocated (E : Nat) (s : GroupSyncRead Port) (id a w : Nat) :
    getData E (allocated E s) id a w = (allocated E s, 0) := by
  have hav : isAvailable E (allocated E s) id a w = (allocated E s, false) := by
    unfold isAvailable
    split
    · rfl
    · simp [findParam, allocated, findParam.loop]
  simp [getData, hav]

/-- Behind its guard or with `last_result_` false, `getData` returns 0 and
leaves the state. -/
theorem getData_gated (E : Nat) (s : GroupSyncRead Port) (id a w : Nat)
    (h : noHandlerOrV1 s = true ∨ s.last_result_ = false) :
    getData E s id a w = (s, 0) := by
  have hav : isAvailable E s id a w = (s, false) := by
    rcases h with h | h
    · simp [isAvailable, h]
    · simp [isAvailable, h]
  simp [getData, hav]

/-- C15 (as amended): `getData` leaves the whole state unchanged in every
state that has an array, and in every state where there is no packet
handler, the protocol version is 1.0 or `last_result_` is false.  In a state
without an array that passes these tests it allocates the array (array set,
ownership flag false, `count_ids_` 0) and returns 0.  In every state a second
call with the same arguments returns the same value and changes nothing
more. -/
theorem getData_pure_with_array (E : Nat) (s : GroupSyncRead Port) (id a w : Nat) :
    ((s.param_ ≠ none ∨ noHandlerOrV1 s = true ∨ s.last_result_ = false) →
      (getData E s id a w).1 = s) ∧
    (s.param_ = none → noHandlerOrV1 s = false → s.last_result_ = true →
      getData E s id a w = (allocated E s, 0)) ∧
    getData E (getData E s id a w).1 id a w = getData E s id a w := by
  have h1 : (s.param_ ≠ none ∨ noHandlerOrV1 s = true ∨ s.last_result_ = false) →
      (getData E s id a w).1 = s := by
    intro h
    rcases h with h | h | h
    · exact (accessors_state_of_array E s h id a w).2.1
    · rw [getData_gated E s id a w (Or.inl h)]
    · rw [getData_gated E s id a w (Or.inr h)]
  refine ⟨h1, getData_allocates E s id a w, ?_⟩
  by_cases hc : s.param_ ≠ none ∨ noHandlerOrV1 s = true ∨ s.last_result_ = false
  · rw [h1 hc]
  · have hp : s.param_ = none := by
      by_contra hp
      exact hc (Or.inl hp)
    have hg : noHandlerOrV1 s = false := by
      cases hg : noHandlerOrV1 s with
      | false => rfl
      | true => exact absurd (Or.inr (Or.inl hg)) hc
    have hl : s.last_result_ = true := by
      cases hl : s.last_result_ with
      | true => rfl
      | false => exact absurd (Or.inr (Or.inr hl)) hc
    rw [getData_allocates E s id a w hp hg hl]
    exact getData_allocated E s id a w

/-- C15 (as amended), at the scenario after the receive: `getData(1, 36, 4)`
leaves the state and returns `0x12345678`, twice. -/
theorem getData_pure_with_array_witness :
    getData extraBytesPerRecord (afterReceive none) 1 36 4 = (afterReceive none, 0x12345678) ∧
    getData extraBytesPerRecord
      (getData extraBytesPerRecord (afterReceive none) 1 36 4).1 1 36 4 =
      (afterReceive none, 0x12345678) := by
  have h := getData_pure_with_array extraBytesPerRecord (afterReceive none) 1 36 4
  have h1 : getData extraBytesPerRecord (afterReceive none) 1 36 4 =
      (afterReceive none, 0x12345678) :=
    Prod.ext (h.1 (Or.inl (by decide))) (by decide)
  exact ⟨h1, h.2.2.trans h1⟩

/-- C15 (as stated) fails: after construction, registering IDs 1, 2, 3, a
successful receive and `setBuffer(NULL, 0)`, there is no array and
`last_result_` is true; `getData(1, 36, 4)` then returns 0 and leaves an
array of 18 bytes, so the state is not unchanged. -/
theorem getData_changes_state :
    runOps extraBytesPerRecord
      (construct (some scenarioResponses) (some queueHandler) 36 4 3)
      [.addParam 1, .addParam 2, .addParam 3, .rxPacket 9, .setBuffer none 0] =
      (setBuffer extraBytesPerRecord (afterReceive (some [])) none 0).1 ∧
    (setBuffer extraBytesPerRecord (afterReceive (some [])) none 0).1.param_ = none ∧
    (setBuffer extraBytesPerRecord (afterReceive (some [])) none 0).1.last_result_ = true ∧
    (getData extraBytesPerRecord
      (setBuffer extraBytesPerRecord (afterReceive (some [])) none 0).1 1 36 4).2 = 0 ∧
    (getData extraBytesPerRecord
      (setBuffer extraBytesPerRecord (afterReceive (some [])) none 0).1 1 36 4).1.param_ =
      some (List.replicate 18 0) ∧
    (getData extraBytesPerRecord
      (setBuffer extraBytesPerRecord (afterReceive (some [])) none 0).1 1 36 4).1 ≠
      (setBuffer extraBytesPerRecord (afterReceive (some [])) none 0).1 := by
  have hp : (getData extraBytesPerRecord
      (setBuffer extraBytesPerRecord (afterReceive (some [])) none 0).1 1 36 4).1.param_ =
      some (List.replicate 18 0) := by decide
  refine ⟨?_, rfl, rfl, by decide, hp, ?_⟩
  · simp [runOps, step, construct, clearParam, addParam, findParam, findParam.loop,
      noHandlerOrV1, queueHandler, rxPacket, rxPacket.loop, storeRx, writeBytes,
      scenarioResponses, setBuffer, afterReceive, windowState, COMM_SUCCESS,
      extraBytesPerRecord]
  · intro h
    rw [h] at hp
    simp [setBuffer] at hp

end GroupSyncRead

namespace GroupSyncRead

variable {Port : Type}

/-! ## Where `getData` reads -/

/-- C19: whenever `isAvailable(id, a, w)` is true, in a state with
`count_ids_ ≤ max_ids_`, the slot `i` of `id` is below `count_ids_`,
`start_address_ ≤ a` and `(a - start_address_) + w ≤ data_length_`; `getData`
takes its result from the bytes at `max_ids_ + i * (data_length_ + 1) +
(a - start_address_) + k` for `k < w` (`w` = 1, 2, 4), and each of these
indices lies among the `data_length_` data bytes of the payload record of
slot `i`, before its status byte and before the next record, and inside an
array of at least `max_ids_ * (data_length_ + 2)` bytes, where the read
finds a byte. -/
theorem getData_reads_in_record (E : Nat) (s : GroupSyncRead Port) (id a w : Nat)
    (hav : (isAvailable E s id a w).2 = true) (hcm : s.count_ids_ ≤ s.max_ids_) :
    ∃ buf i, s.param_ = some buf ∧ slotIndex s id = some i ∧ i < s.count_ids_ ∧
      s.start_address_ ≤ a ∧ (a - s.start_address_) + w ≤ s.data_length_ ∧
      (getData E s id a w).2 =
        (if w = 1 then
          buf.getD (s.max_ids_ + i * (s.data_length_ + 1) + (a - s.start_address_)) 0
        else if w = 2 then
          DXL_MAKEWORD
            (buf.getD (s.max_ids_ + i * (s.data_length_ + 1) + (a - s.start_address_)) 0)
            (buf.getD (s.max_ids_ + i * (s.data_length_ + 1) + (a - s.start_address_) + 1) 0)
        else if w = 4 then
          DXL_MAKEDWORD
            (DXL_MAKEWORD
              (buf.getD (s.max_ids_ + i * (s.data_length_ + 1) + (a - s.start_address_)) 0)
              (buf.getD (s.max_ids_ + i * (s.data_length_ + 1) + (a - s.start_address_) + 1) 0))
            (DXL_MAKEWORD
              (buf.getD (s.max_ids_ + i * (s.data_length_ + 1) + (a - s.start_address_) + 2) 0)
              (buf.getD (s.max_ids_ + i * (s.data_length_ + 1) + (a - s.start_address_) + 3) 0))
        else 0) ∧
      ∀ k, k < w →
        s.max_ids_ + i * (s.data_length_ + 1) ≤
          s.max_ids_ + i * (s.data_length_ + 1) + (a - s.start_address_) + k ∧
        s.max_ids_ + i * (s.data_length_ + 1) + (a - s.start_address_) + k <
          s.max_ids_ + i * (s.data_length_ + 1) + s.data_length_ ∧
        s.max_ids_ + i * (s.data_length_ + 1) + (a - s.start_address_) + k <
          s.max_ids_ * (s.data_length_ + 2) ∧
        (s.max_ids_ * (s.data_length_ + 2) ≤ buf.length →
          ∃ b, buf[s.max_ids_ + i * (s.data_length_ + 1) + (a - s.start_address_) + k]? =
            some b) := by
  obtain ⟨_, _, ⟨buf, i, hbuf, hi⟩, h1, h2, _⟩ := isAvailable_true E s id a w hav
  obtain ⟨_, hlt, _, _⟩ := findParam.loop_some _ _ _ hi
  have hi' : i < s.count_ids_ := by omega
  have hgd := getData_of_available E s id a w buf i hbuf hi hav
  refine ⟨buf, i, hbuf, by simp [slotIndex, hbuf, hi], hi', h1, by omega, ?_, ?_⟩
  · rw [hgd]
  · intro k hk
    have hslot : (i + 1) * (s.data_length_ + 1) ≤ s.max_ids_ * (s.data_length_ + 1) :=
      Nat.mul_le_mul_right _ (by omega)
    have he1 : (i + 1) * (s.data_length_ + 1) = i * (s.data_length_ + 1) + (s.data_length_ + 1) :=
      Nat.succ_mul _ _
    have he2 : s.max_ids_ * (s.data_length_ + 2) =
        s.max_ids_ + s.max_ids_ * (s.data_length_ + 1) := by ring
    have hin : s.max_ids_ + i * (s.data_length_ + 1) + (a - s.start_address_) + k <
        s.max_ids_ * (s.data_length_ + 2) := by omega
    refine ⟨by omega, by omega, hin, ?_⟩
    intro hlen
    exact ⟨_, List.getElem?_eq_getElem (by omega)⟩

/-- C19, at the scenario after the receive: `getData(2, 38, 2)` reads the
bytes at indices 10 and 11, inside the record of slot 1 (indices 8 to 12,
status byte at 12); the read at index 11 finds a byte. -/
theorem getData_reads_in_record_witness :
    ∃ buf i, (afterReceive none).param_ = some buf ∧ slotIndex (afterReceive none) 2 = some i ∧
      ∃ b, buf[(afterReceive none).max_ids_ + i * ((afterReceive none).data_length_ + 1) +
        (38 - (afterReceive none).start_address_) + 1]? = some b := by
  obtain ⟨buf, i, hbuf, hi, _, _, _, _, h⟩ :=
    getData_reads_in_record extraBytesPerRecord (afterReceive none) 2 38 2 (by decide)
      (by decide)
  have hb : buf = [1, 2, 3, 0x78, 0x56, 0x34, 0x12, 0, 1, 0, 0, 0, 1, 0, 0, 0, 0, 0] := by
    have : (afterReceive none).param_ =
        some [1, 2, 3, 0x78, 0x56, 0x34, 0x12, 0, 1, 0, 0, 0, 1, 0, 0, 0, 0, 0] := rfl
    rw [this] at hbuf
    exact (Option.some.inj hbuf).symm
  refine ⟨buf, i, hbuf, hi, (h 1 (by decide)).2.2.2 ?_⟩
  rw [hb]
  decide

end GroupSyncRead
